import Mathlib

/-!
Shallow embedding of the wallpy schedule-resolution engine
(`src/wallpy/schedule.py`) and of the schedule validators
(`src/wallpy/validate.py`), together with theorems settling the
specification claims about them.

Modelling conventions:

* datetimes are integer seconds on an abstract epoch timeline; dates are
  integer day numbers; `datetime.combine d t` is `d * 86400 + t`;
  day number 0 is taken to fall on a Monday (epoch convention for
  Python's `strftime("%A")`).
* time-of-day values are seconds in `[0, 86400)`.
* Python float arithmetic on durations is modelled exactly over the
  rationals.  Internally every quantity is kept as an integer (with
  denominators cleared, e.g. `rem >= total/n` becomes `total <= rem * n`);
  fractional display-window endpoints are returned as `Rat`.
* Python exceptions are modelled with `Except PyError`; the mutable
  per-instance state of `SolarTimeCalculator` (`_cache`, `_error_cache`)
  is threaded explicitly as a `CalcState` value, instrumented with a
  counter of invocations of the external astronomical function.
* the external astronomical computation (`astral.sun.sun`) is a parameter
  `compute : SolarKey → Option Nat`; `none` models any failure of the
  library (which the source catches), `some t` a successful result.
-/

/-- Decidable equality for `Except` results, so that concrete runs can be
checked by `decide`. -/
instance {ε α : Type} [DecidableEq ε] [DecidableEq α] : DecidableEq (Except ε α)
  | .error x, .error y =>
    if h : x = y then .isTrue (by rw [h]) else .isFalse (fun hc => h (Except.error.inj hc))
  | .error _, .ok _ => .isFalse (fun hc => Except.noConfusion hc)
  | .ok _, .error _ => .isFalse (fun hc => Except.noConfusion hc)
  | .ok x, .ok y =>
    if h : x = y then .isTrue (by rw [h]) else .isFalse (fun hc => h (Except.ok.inj hc))

/-- Python exceptions that the modelled code can raise.  `unboundLocal` is the
`UnboundLocalError` raised when a local variable (here: `time_remaining`) is
read before assignment; `stopIteration` models `next(iter(...))` on an empty
dict. -/
inductive PyError
  | unboundLocal
  | typeError
  | keyError
  | indexError
  | stopIteration
  | attributeError
deriving DecidableEq

/-- `str.lower` on a single character (ASCII fragment, which covers every
string the engine compares). -/
def lowerChar (c : Char) : Char :=
  if 'A' ≤ c ∧ c ≤ 'Z' then Char.ofNat (c.toNat + 32) else c

/-- `str.lower` (ASCII fragment). -/
def lowerStr (s : String) : String := String.mk (s.toList.map lowerChar)

/-- Association-list lookup with decidable key equality (models Python dict
indexing; first match wins). -/
def assocFind {α β : Type} [DecidableEq α] : List (α × β) → α → Option β
  | [], _ => none
  | (k, v) :: rest, key => if key = k then some v else assocFind rest key

/-- `ScheduleType` from `models.py`. -/
inductive ScheduleType
  | timeblocks
  | days
deriving DecidableEq

/-- `TimeSpec` from `models.py`: the `type` discriminator together with the
union-typed `base` field (a clock time for `ABSOLUTE`, an event name plus
minute offset for `SOLAR`) is modelled as a sum.  The absolute base is the
time of day in seconds. -/
inductive TimeSpec
  | absolute (base : Nat)
  | solar (base : String) (offset : Int)
deriving DecidableEq

/-- `TimeBlock` from `models.py`; `end_` is the Python field `end`, images are
kept as path strings. -/
structure TimeBlock where
  name : String
  start : TimeSpec
  end_ : TimeSpec
  images : List String
  shuffle : Bool := false
deriving DecidableEq

/-- `DaySchedule` from `models.py`. -/
structure DaySchedule where
  images : List String
  shuffle : Bool := false
deriving DecidableEq

/-- `ScheduleMeta` from `models.py` (the optional string fields do not
influence the engine and default to `""`). -/
structure ScheduleMeta where
  type : ScheduleType
  name : String
  author : String := ""
  description : String := ""
  version : String := "1.0"
deriving DecidableEq

/-- `Schedule` from `models.py`.  The `Optional[Dict]` fields are modelled as
(insertion-ordered) association data: `timeblocks` is the list of the dict's
values (block names are unique and stored in the blocks), `days` keeps the
weekday keys.  `None` and `{}` both collapse to `[]`, which is faithful to
every truthiness test (`not schedule.timeblocks`, `not schedule.days`) the
engine performs. -/
structure Schedule where
  meta : ScheduleMeta
  timeblocks : List TimeBlock := []
  days : List (String × DaySchedule) := []
deriving DecidableEq

/-- `Location` from `models.py`; latitude/longitude are only ever compared for
equality (as parts of a cache key), so `Rat` stands in for Python floats. -/
structure Location where
  latitude : Rat
  longitude : Rat
  timezone : String := "UTC"
  name : String := "location"
  region : String := "region"
deriving DecidableEq

def midnightStr : String := "midnight"

/-- `SOLAR_FALLBACKS` from `schedule.py` (times of day in seconds). -/
def solarFallbacks : List (String × Nat) :=
  [(midnightStr, 0), ("dawn", 5 * 3600), ("sunrise", 6 * 3600 + 1800),
   ("noon", 12 * 3600), ("sunset", 18 * 3600 + 1800), ("dusk", 19 * 3600 + 1800)]

/-- `SolarTimeCalculator.get_fallback_time`: `SOLAR_FALLBACKS[event.lower()]`,
raising `KeyError` for an unknown event name. -/
def get_fallback_time (event : String) : Except PyError Nat :=
  match assocFind solarFallbacks (lowerStr event) with
  | some t => .ok t
  | none => .error .keyError

/-- Cache key of `SolarTimeCalculator.resolve_time`:
`(event, date_obj, latitude, longitude, timezone)`. -/
abbrev SolarKey := String × Int × Rat × Rat × String

/-- The mutable state of one `SolarTimeCalculator` instance: the memoization
cache `_cache`, the `_error_cache` of already-logged failure keys, and (as
instrumentation, not present in the source) a counter of invocations of the
external astronomical function. -/
structure CalcState where
  cache : List (SolarKey × Nat) := []
  errorCache : List String := []
  computes : Nat := 0
deriving DecidableEq

/-- `SolarTimeCalculator.resolve_time` (schedule.py lines 66-112), with the
instance state passed explicitly.  The error key `"timezone:" + tz` is
modelled by the timezone string itself (the constant prefix is injective). -/
def resolve_time (compute : SolarKey → Option Nat) (event : String) (dateObj : Int)
    (location : Option Location) (σ : CalcState) : Except PyError (Nat × CalcState) :=
  let ev := lowerStr event
  match location with
  | none => (get_fallback_time ev).map (fun t => (t, σ))
  | some loc =>
    let key : SolarKey := (ev, dateObj, loc.latitude, loc.longitude, loc.timezone)
    match assocFind σ.cache key with
    | some v => .ok (v, σ)
    | none =>
      if ev = midnightStr then
        .ok (0, { σ with cache := (key, 0) :: σ.cache })
      else
        match compute key with
        | some t =>
          .ok (t, { σ with cache := (key, t) :: σ.cache, computes := σ.computes + 1 })
        | none =>
          let σ' : CalcState :=
            { σ with computes := σ.computes + 1,
                     errorCache :=
                       if σ.errorCache.contains loc.timezone then σ.errorCache
                       else loc.timezone :: σ.errorCache }
          (get_fallback_time ev).map (fun t => (t, σ'))

/-- The cache-independent value that `resolve_time` computes for a key whose
location is present: hard-coded midnight, else the external computation. -/
def keyValue (compute : SolarKey → Option Nat) (key : SolarKey) : Option Nat :=
  if key.1 = midnightStr then some 0 else compute key

/-- Pure value twin of `resolve_time`: what the call returns, independently of
the cache. -/
def resolve_timeP (compute : SolarKey → Option Nat) (event : String) (dateObj : Int)
    (location : Option Location) : Except PyError Nat :=
  let ev := lowerStr event
  match location with
  | none => get_fallback_time ev
  | some loc =>
    let key : SolarKey := (ev, dateObj, loc.latitude, loc.longitude, loc.timezone)
    match keyValue compute key with
    | some v => .ok v
    | none => get_fallback_time ev

/-- A cache state is consistent (with the fixed external computation) when
every stored entry is the value the computation would produce.  Every state
reachable from the empty cache is consistent. -/
def Consistent (compute : SolarKey → Option Nat) (cache : List (SolarKey × Nat)) : Prop :=
  ∀ k v, assocFind cache k = some v → keyValue compute k = some v

/-- `datetime.combine` on the integer-seconds timeline. -/
def combine (d : Int) (t : Int) : Int := d * 86400 + t

/-- `.date()` of a datetime (floor division matches Python). -/
def dateOf (when : Int) : Int := Int.ediv when 86400

/-- `.time()` of a datetime, as seconds of day. -/
def todOf (when : Int) : Int := Int.emod when 86400

/-- `SolarTimeCalculator.resolve_datetime` (lines 114-132).  The
`_convert_location` dict/object coercion is elided: locations are already
`Option Location` values here. -/
def resolve_datetime (compute : SolarKey → Option Nat) (location : Option Location)
    (spec : TimeSpec) (baseDate : Int) (σ : CalcState) : Except PyError (Int × CalcState) :=
  match spec with
  | .absolute t => .ok (combine baseDate t, σ)
  | .solar ev off =>
    (resolve_time compute ev baseDate location σ).map
      (fun p => (combine baseDate p.1 + off * 60, p.2))

/-- Pure value twin of `resolve_datetime`. -/
def resolve_datetimeP (compute : SolarKey → Option Nat) (location : Option Location)
    (spec : TimeSpec) (baseDate : Int) : Except PyError Int :=
  match spec with
  | .absolute t => .ok (combine baseDate t)
  | .solar ev off =>
    (resolve_timeP compute ev baseDate location).map
      (fun t => combine baseDate t + off * 60)

/-- The per-block membership test of the current-block loop of
`ScheduleManager.get_block` (lines 345-357), with the source's nested
early-return structure flattened into one disjunction: either the
previous-day-anchored interval of a midnight-crossing block contains `when`,
or the (possibly midnight-normalized) interval `[start, end)` does. -/
def blockMatches (when start end0 : Int) : Bool :=
  let end1 := if end0 ≤ start then end0 + 86400 else end0
  (decide (end0 ≤ start) && decide (when < end1) && decide (todOf when < todOf end1)
      && decide (start - 86400 ≤ when) && decide (when < end1 - 86400))
    || (decide (start ≤ when) && decide (when < end1))

/-- The current-block loop of `ScheduleManager.get_block` (lines 338-359):
return the first block for which `blockMatches` holds. -/
def findCurrentBlock (compute : SolarKey → Option Nat) (location : Option Location)
    (when testDate : Int) :
    List TimeBlock → CalcState → Except PyError (Option TimeBlock × CalcState)
  | [], σ => .ok (none, σ)
  | block :: rest, σ => do
    let (start, σ1) ← resolve_datetime compute location block.start testDate σ
    let (end0, σ2) ← resolve_datetime compute location block.end_ testDate σ1
    if blockMatches when start end0 then
      pure (some block, σ2)
    else
      findCurrentBlock compute location when testDate rest σ2

/-- Pure value twin of `findCurrentBlock`. -/
def findCurrentBlockP (compute : SolarKey → Option Nat) (location : Option Location)
    (when testDate : Int) : List TimeBlock → Except PyError (Option TimeBlock)
  | [] => .ok none
  | block :: rest => do
    let start ← resolve_datetimeP compute location block.start testDate
    let end0 ← resolve_datetimeP compute location block.end_ testDate
    if blockMatches when start end0 then
      pure (some block)
    else
      findCurrentBlockP compute location when testDate rest

/-- The future-block collection loops of `ScheduleManager.get_block`
(lines 307-326): resolve each block's times on date `d`; when `onlyFuture`
only blocks whose start is strictly after `when` are kept.  The resolved end
(and its midnight bump) is computed for its cache side effects but unused. -/
def collectFutureBlocks (compute : SolarKey → Option Nat) (location : Option Location)
    (when d : Int) (onlyFuture : Bool) :
    List TimeBlock → CalcState → Except PyError (List (Int × TimeBlock) × CalcState)
  | [], σ => .ok ([], σ)
  | block :: rest, σ => do
    let (start, σ1) ← resolve_datetime compute location block.start d σ
    let (_end0, σ2) ← resolve_datetime compute location block.end_ d σ1
    let (acc, σ3) ← collectFutureBlocks compute location when d onlyFuture rest σ2
    if onlyFuture ∧ ¬ (start > when) then
      pure (acc, σ3)
    else
      pure ((start, block) :: acc, σ3)

/-- Pure value twin of `collectFutureBlocks`. -/
def collectFutureBlocksP (compute : SolarKey → Option Nat) (location : Option Location)
    (when d : Int) (onlyFuture : Bool) :
    List TimeBlock → Except PyError (List (Int × TimeBlock))
  | [] => .ok []
  | block :: rest => do
    let start ← resolve_datetimeP compute location block.start d
    let _end0 ← resolve_datetimeP compute location block.end_ d
    let acc ← collectFutureBlocksP compute location when d onlyFuture rest
    if onlyFuture ∧ ¬ (start > when) then
      pure acc
    else
      pure ((start, block) :: acc)

/-- Stable insertion step: place `x` after every element with a strictly
smaller key and before the first element with a key `≥` its own. -/
def insertOn {α : Type} (key : α → Int) (x : α) : List α → List α
  | [] => [x]
  | y :: ys => if key y < key x then y :: insertOn key x ys else x :: y :: ys

/-- Stable ascending sort by an integer key; a stable sorted output is unique,
so this insertion sort agrees with Python's `list.sort(key=...)`. -/
def sortOn {α : Type} (key : α → Int) (l : List α) : List α :=
  l.foldr (insertOn key) []

/-- `future_blocks.sort(key=lambda x: x[0])`. -/
def sortByStart (l : List (Int × TimeBlock)) : List (Int × TimeBlock) :=
  sortOn (fun p => p.1) l

/-- `ScheduleManager.get_block` (lines 297-359), with `when` passed in place
of `datetime.now()`. -/
def get_block (compute : SolarKey → Option Nat) (location : Option Location)
    (schedule : Schedule) (when : Int) (get_next : Bool) (σ : CalcState) :
    Except PyError (Option TimeBlock × CalcState) :=
  let testDate := dateOf when
  if schedule.meta.type ≠ ScheduleType.timeblocks ∨ schedule.timeblocks = [] then
    .ok (none, σ)
  else if get_next then do
    let (today, σ1) ← collectFutureBlocks compute location when testDate true schedule.timeblocks σ
    let (future, σ2) ←
      if today = [] then
        collectFutureBlocks compute location when (testDate + 1) false schedule.timeblocks σ1
      else
        pure (today, σ1)
    match (sortByStart future).head? with
    | some p => pure (some p.2, σ2)
    | none =>
      -- unreachable wraparound safety net: `next(iter(schedule.timeblocks.values()))`
      match schedule.timeblocks.head? with
      | some b => pure (some b, σ2)
      | none => .error .stopIteration
  else
    findCurrentBlock compute location when testDate schedule.timeblocks σ

/-- Pure value twin of `get_block`. -/
def get_blockP (compute : SolarKey → Option Nat) (location : Option Location)
    (schedule : Schedule) (when : Int) (get_next : Bool) :
    Except PyError (Option TimeBlock) :=
  let testDate := dateOf when
  if schedule.meta.type ≠ ScheduleType.timeblocks ∨ schedule.timeblocks = [] then
    .ok none
  else if get_next then do
    let today ← collectFutureBlocksP compute location when testDate true schedule.timeblocks
    let future ←
      if today = [] then
        collectFutureBlocksP compute location when (testDate + 1) false schedule.timeblocks
      else
        pure today
    match (sortByStart future).head? with
    | some p => pure (some p.2)
    | none =>
      match schedule.timeblocks.head? with
      | some b => pure (some b)
      | none => .error .stopIteration
  else
    findCurrentBlockP compute location when testDate schedule.timeblocks

/-- `ScheduleManager._get_block_times` (lines 381-392).  Instead of the float
`image_duration = total/len(images)` the integral `total` is returned; every
use site divides by (or clears) the image count exactly. -/
def get_block_times (compute : SolarKey → Option Nat) (location : Option Location)
    (block : TimeBlock) (testDate : Int) (σ : CalcState) :
    Except PyError ((Int × Int × Int) × CalcState) := do
  let (start, σ1) ← resolve_datetime compute location block.start testDate σ
  let (end0, σ2) ← resolve_datetime compute location block.end_ testDate σ1
  let end1 := if end0 ≤ start then end0 + 86400 else end0
  pure ((start, end1, end1 - start), σ2)

/-- Pure value twin of `get_block_times`. -/
def get_block_timesP (compute : SolarKey → Option Nat) (location : Option Location)
    (block : TimeBlock) (testDate : Int) : Except PyError (Int × Int × Int) := do
  let start ← resolve_datetimeP compute location block.start testDate
  let end0 ← resolve_datetimeP compute location block.end_ testDate
  let end1 := if end0 ≤ start then end0 + 86400 else end0
  pure (start, end1, end1 - start)

/-- The previous-day re-anchoring of block times that `get_wallpaper` performs
twice, identically (lines 406-417 and 462-470): if `when` precedes today's
start and the block straddles midnight, and yesterday's interval contains
`when`, use yesterday's times. -/
def effective_block_times (compute : SolarKey → Option Nat) (location : Option Location)
    (block : TimeBlock) (when testDate : Int) (σ : CalcState) :
    Except PyError ((Int × Int × Int) × CalcState) := do
  let (t, σ1) ← get_block_times compute location block testDate σ
  if when < t.1 ∧ dateOf t.2.1 ≠ dateOf t.1 then do
    let (p, σ2) ← get_block_times compute location block (testDate - 1) σ1
    if p.1 ≤ when ∧ when < p.2.1 then
      pure (p, σ2)
    else
      pure (t, σ2)
  else
    pure (t, σ1)

/-- Pure value twin of `effective_block_times`. -/
def effective_block_timesP (compute : SolarKey → Option Nat) (location : Option Location)
    (block : TimeBlock) (when testDate : Int) : Except PyError (Int × Int × Int) := do
  let t ← get_block_timesP compute location block testDate
  if when < t.1 ∧ dateOf t.2.1 ≠ dateOf t.1 then do
    let p ← get_block_timesP compute location block (testDate - 1)
    if p.1 ≤ when ∧ when < p.2.1 then
      pure p
    else
      pure t
  else
    pure t

/-- `time_remaining >= image_duration` with the division by the image count
cleared: `rem ≥ total/n`.  For `n = 0` the source sets `image_duration = 0`
and compares `rem ≥ 0`. -/
def durLe (total n rem : Int) : Bool :=
  if n = 0 then 0 ≤ rem else total ≤ rem * n

/-- `ScheduleManager._get_image_index` (lines 361-379).  The float truncation
`int(elapsed / (total/n))` is the exact rational truncation toward zero,
i.e. `Int.tdiv (elapsed * n) total`. -/
def get_image_index (block : TimeBlock) (when start end_ : Int) (is_next : Bool) : Int :=
  if block.shuffle then (if is_next then 1 else 0)
  else
    let n : Int := block.images.length
    if block.images.length = 0 then -1
    else
      let idx0 := Int.tdiv ((when - start) * n) (end_ - start)
      let idx1 := if is_next then Int.emod (idx0 + 1) n else idx0
      min (max 0 idx1) (n - 1)

/-- Python list indexing `l[i]` (negative indices count from the end; out of
range raises `IndexError`). -/
def pyIndex (l : List String) (i : Int) : Except PyError String :=
  let j := if i < 0 then i + l.length else i
  if 0 ≤ j then
    match l.get? j.toNat with
    | some x => .ok x
    | none => .error .indexError
  else
    .error .indexError

/-- Cast of an integer datetime to the (possibly fractional) window
timeline. -/
def ratOf (x : Int) : Rat := (x : Rat)

/-- `start + k * image_duration` where `image_duration = total/n`:
the start of the `k`-th per-image slice of a block. -/
def blockWindow (start tot n k : Int) : Rat :=
  ratOf start + (ratOf (tot * k)) / (ratOf n)

/-- Seconds of day of `time(23, 59)`, the end marker used by the days
branch. -/
def lastMinute : Int := 23 * 3600 + 59 * 60

/-- Day-of-week names as produced by `strftime("%A").lower()`. -/
def weekNames : List String :=
  ["monday", "tuesday", "wednesday", "thursday", "friday", "saturday", "sunday"]

/-- Weekday name of a day number (day 0 is a Monday by epoch convention). -/
def dayName (d : Int) : String := ((weekNames.get? (Int.emod d 7).toNat).getD (""))

/-- Midnight-based window of the `k`-th per-image slice of a day divided in
`n` equal parts (`image_duration = 1 day / n`). -/
def dayWindow (d : Int) (n k : Int) : Rat :=
  ratOf (combine d 0) + (ratOf (86400 * k)) / (ratOf n)

/-- Lines 534-546 of `get_wallpaper`: move to the next day's first image, or
wrap to the first day entry defined in the schedule. -/
def gwDaysNextDay (schedule : Schedule) (testDate : Int) :
    Except PyError (Option (String × Rat × Rat)) :=
  match assocFind schedule.days (dayName (testDate + 1)) with
  | some nds =>
    if nds.images ≠ [] then do
      let img ← pyIndex nds.images 0
      .ok (some (img, ratOf (combine (testDate + 1) 0), ratOf (combine (testDate + 1) lastMinute)))
    else do
      let fd ← match schedule.days.head? with
        | some p => Except.ok p.2
        | none => Except.error PyError.stopIteration
      let img ← pyIndex fd.images 0
      .ok (some (img, ratOf (combine (testDate + 1) 0), ratOf (combine (testDate + 1) lastMinute)))
  | none => do
    let fd ← match schedule.days.head? with
      | some p => Except.ok p.2
      | none => Except.error PyError.stopIteration
    let img ← pyIndex fd.images 0
    .ok (some (img, ratOf (combine (testDate + 1) 0), ratOf (combine (testDate + 1) lastMinute)))

/-- Lines 495-546 of `get_wallpaper`: the "next wallpaper" logic for the
current day's entry.  In the non-shuffled branch the source reads the local
`time_remaining`, which is only ever assigned in the shuffled branch, so
`next_index == 0` raises `UnboundLocalError`. -/
def gwDaysNext (schedule : Schedule) (daySchedule : DaySchedule) (when testDate : Int) :
    Except PyError (Option (String × Rat × Rat)) :=
  if daySchedule.shuffle then
    if combine testDate lastMinute - when > 0 then do
      let img ← pyIndex daySchedule.images 0
      .ok (some (img, ratOf when, ratOf (combine testDate lastMinute)))
    else
      gwDaysNextDay schedule testDate
  else
    let n : Int := daySchedule.images.length
    let elapsed := when - combine testDate 0
    let currentIndex := Int.tdiv (elapsed * n) 86400
    let nextIndex := Int.emod (currentIndex + 1) n
    if nextIndex = 0 then
      .error .unboundLocal
    else do
      let img ← pyIndex daySchedule.images nextIndex
      .ok (some (img, dayWindow testDate n nextIndex, dayWindow testDate n (nextIndex + 1)))

/-- Lines 566-586 of `get_wallpaper`: fallback when today has no usable day
entry. -/
def gwDaysFallback (schedule : Schedule) (testDate : Int) (get_next : Bool) :
    Except PyError (Option (String × Rat × Rat)) :=
  match schedule.days.head? with
  | some p =>
    if p.2.images ≠ [] then
      if get_next then
        match assocFind schedule.days (dayName (testDate + 1)) with
        | some nds =>
          if nds.images ≠ [] then do
            let img ← pyIndex nds.images 0
            .ok (some (img, ratOf (combine (testDate + 1) 0),
                  ratOf (combine (testDate + 1) lastMinute)))
          else do
            let img ← pyIndex p.2.images 0
            .ok (some (img, ratOf (combine (testDate + 1) 0),
                  ratOf (combine (testDate + 1) lastMinute)))
        | none => do
          let img ← pyIndex p.2.images 0
          .ok (some (img, ratOf (combine (testDate + 1) 0),
                ratOf (combine (testDate + 1) lastMinute)))
      else do
        let img ← pyIndex p.2.images 0
        .ok (some (img, ratOf (combine testDate 0), ratOf (combine testDate lastMinute)))
    else
      .ok none
  | none => .ok none

/-- The days branch of `ScheduleManager.get_wallpaper` (lines 487-588).  It
never consults the solar calculator, hence is a pure function of the
schedule and `when`. -/
def gwDays (schedule : Schedule) (when : Int) (get_next : Bool) :
    Except PyError (Option (String × Rat × Rat)) :=
  if schedule.days = [] then .ok none
  else
    let testDate := dateOf when
    match assocFind schedule.days (dayName testDate) with
    | some daySchedule =>
      if daySchedule.images ≠ [] then
        if get_next then
          gwDaysNext schedule daySchedule when testDate
        else if daySchedule.shuffle then do
          let img ← pyIndex daySchedule.images 0
          .ok (some (img, ratOf (combine testDate 0), ratOf (combine testDate lastMinute)))
        else
          let n : Int := daySchedule.images.length
          let elapsed := when - combine testDate 0
          let currentIndex := Int.tdiv (elapsed * n) 86400
          do
            let img ← pyIndex daySchedule.images currentIndex
            .ok (some (img, dayWindow testDate n currentIndex,
                  dayWindow testDate n (currentIndex + 1)))
      else
        gwDaysFallback schedule testDate get_next
    | none => gwDaysFallback schedule testDate get_next

/-- Lines 451-457 (used for both "no current block" and "current block has no
images" in the next-wallpaper path): first image of the next block with that
block's window, else no wallpaper. -/
def gwFromNext (compute : SolarKey → Option Nat) (location : Option Location)
    (testDate : Int) (nextBlock : Option TimeBlock) (σ : CalcState) :
    Except PyError (Option (String × Rat × Rat) × CalcState) :=
  match nextBlock with
  | some nb =>
    if nb.images ≠ [] then do
      let (nt, σ') ← get_block_times compute location nb testDate σ
      let img ← pyIndex nb.images 0
      pure (some (img, ratOf nt.1, ratOf nt.2.1), σ')
    else
      pure (none, σ)
  | none => pure (none, σ)

/-- Pure value twin of `gwFromNext`. -/
def gwFromNextP (compute : SolarKey → Option Nat) (location : Option Location)
    (testDate : Int) (nextBlock : Option TimeBlock) :
    Except PyError (Option (String × Rat × Rat)) :=
  match nextBlock with
  | some nb =>
    if nb.images ≠ [] then do
      let nt ← get_block_timesP compute location nb testDate
      let img ← pyIndex nb.images 0
      pure (some (img, ratOf nt.1, ratOf nt.2.1))
    else
      pure none
  | none => pure none

/-- Lines 444-450: fall back to the first image of the first block defined in
the schedule (with its today window), else no wallpaper. -/
def gwFirstFallback (compute : SolarKey → Option Nat) (location : Option Location)
    (schedule : Schedule) (testDate : Int) (σ : CalcState) :
    Except PyError (Option (String × Rat × Rat) × CalcState) :=
  match schedule.timeblocks.head? with
  | some fb =>
    if fb.images ≠ [] then do
      let (ft, σ') ← get_block_times compute location fb testDate σ
      let img ← pyIndex fb.images 0
      pure (some (img, ratOf ft.1, ratOf ft.2.1), σ')
    else
      pure (none, σ)
  | none => pure (none, σ)

/-- Pure value twin of `gwFirstFallback`. -/
def gwFirstFallbackP (compute : SolarKey → Option Nat) (location : Option Location)
    (schedule : Schedule) (testDate : Int) :
    Except PyError (Option (String × Rat × Rat)) :=
  match schedule.timeblocks.head? with
  | some fb =>
    if fb.images ≠ [] then do
      let ft ← get_block_timesP compute location fb testDate
      let img ← pyIndex fb.images 0
      pure (some (img, ratOf ft.1, ratOf ft.2.1))
    else
      pure none
  | none => pure none

/-- The next-wallpaper half of the timeblocks branch of `get_wallpaper`
(lines 403-458). -/
def gwTbNext (compute : SolarKey → Option Nat) (location : Option Location)
    (schedule : Schedule) (when testDate : Int)
    (currentBlock nextBlock : Option TimeBlock) (σ : CalcState) :
    Except PyError (Option (String × Rat × Rat) × CalcState) :=
  match currentBlock with
  | some cb =>
    if cb.images ≠ [] then do
      let (t, σ1) ← effective_block_times compute location cb when testDate σ
      let start := t.1
      let end_ := t.2.1
      let tot := t.2.2
      let n : Int := cb.images.length
      if durLe tot n (end_ - when) then
        if cb.shuffle then do
          let img ← pyIndex cb.images 0
          pure (some (img, ratOf start, ratOf end_), σ1)
        else do
          let currentIndex := get_image_index cb when start end_ false
          let nextIndex := Int.emod (currentIndex + 1) n
          let img ← pyIndex cb.images nextIndex
          pure (some (img, blockWindow start tot n nextIndex,
                blockWindow start tot n (nextIndex + 1)), σ1)
      else
        match nextBlock with
        | some nb =>
          if nb.images ≠ [] then do
            let (nt, σ2) ← get_block_times compute location nb testDate σ1
            let img ← pyIndex nb.images 0
            pure (some (img, ratOf nt.1, ratOf nt.2.1), σ2)
          else
            gwFirstFallback compute location schedule testDate σ1
        | none => gwFirstFallback compute location schedule testDate σ1
    else
      gwFromNext compute location testDate nextBlock σ
  | none => gwFromNext compute location testDate nextBlock σ

/-- Pure value twin of `gwTbNext`. -/
def gwTbNextP (compute : SolarKey → Option Nat) (location : Option Location)
    (schedule : Schedule) (when testDate : Int)
    (currentBlock nextBlock : Option TimeBlock) :
    Except PyError (Option (String × Rat × Rat)) :=
  match currentBlock with
  | some cb =>
    if cb.images ≠ [] then do
      let t ← effective_block_timesP compute location cb when testDate
      let start := t.1
      let end_ := t.2.1
      let tot := t.2.2
      let n : Int := cb.images.length
      if durLe tot n (end_ - when) then
        if cb.shuffle then do
          let img ← pyIndex cb.images 0
          pure (some (img, ratOf start, ratOf end_))
        else do
          let currentIndex := get_image_index cb when start end_ false
          let nextIndex := Int.emod (currentIndex + 1) n
          let img ← pyIndex cb.images nextIndex
          pure (some (img, blockWindow start tot n nextIndex,
                blockWindow start tot n (nextIndex + 1)))
      else
        match nextBlock with
        | some nb =>
          if nb.images ≠ [] then do
            let nt ← get_block_timesP compute location nb testDate
            let img ← pyIndex nb.images 0
            pure (some (img, ratOf nt.1, ratOf nt.2.1))
          else
            gwFirstFallbackP compute location schedule testDate
        | none => gwFirstFallbackP compute location schedule testDate
    else
      gwFromNextP compute location testDate nextBlock
  | none => gwFromNextP compute location testDate nextBlock

/-- The current-wallpaper half of the timeblocks branch of `get_wallpaper`
(lines 460-485 plus the fall-through `return None`). -/
def gwTbCurrent (compute : SolarKey → Option Nat) (location : Option Location)
    (when testDate : Int) (currentBlock : Option TimeBlock) (σ : CalcState) :
    Except PyError (Option (String × Rat × Rat) × CalcState) :=
  match currentBlock with
  | some cb =>
    if cb.images ≠ [] then do
      let (t, σ1) ← effective_block_times compute location cb when testDate σ
      let start := t.1
      let end_ := t.2.1
      let tot := t.2.2
      let n : Int := cb.images.length
      if when < start then
        pure (none, σ1)
      else if end_ ≤ when then do
        let img ← pyIndex cb.images (-1)
        pure (some (img, ratOf start, ratOf end_), σ1)
      else
        let imageIndex := get_image_index cb when start end_ false
        if imageIndex < 0 then
          pure (none, σ1)
        else do
          let img ← pyIndex cb.images imageIndex
          pure (some (img, blockWindow start tot n imageIndex,
                blockWindow start tot n (imageIndex + 1)), σ1)
    else
      pure (none, σ)
  | none => pure (none, σ)

/-- Pure value twin of `gwTbCurrent`. -/
def gwTbCurrentP (compute : SolarKey → Option Nat) (location : Option Location)
    (when testDate : Int) (currentBlock : Option TimeBlock) :
    Except PyError (Option (String × Rat × Rat)) :=
  match currentBlock with
  | some cb =>
    if cb.images ≠ [] then do
      let t ← effective_block_timesP compute location cb when testDate
      let start := t.1
      let end_ := t.2.1
      let tot := t.2.2
      let n : Int := cb.images.length
      if when < start then
        pure none
      else if end_ ≤ when then do
        let img ← pyIndex cb.images (-1)
        pure (some (img, ratOf start, ratOf end_))
      else
        let imageIndex := get_image_index cb when start end_ false
        if imageIndex < 0 then
          pure none
        else do
          let img ← pyIndex cb.images imageIndex
          pure (some (img, blockWindow start tot n imageIndex,
                blockWindow start tot n (imageIndex + 1)))
    else
      pure none
  | none => pure none

/-- `ScheduleManager.get_wallpaper` (lines 394-588) with `when` passed in
place of `datetime.now()`; the `include_time` flag is fixed to `True`
(every `return x` site pairs `x` with the same window the `include_time`
variant reports, and `(None, None, None)` is `none`). -/
def get_wallpaper (compute : SolarKey → Option Nat) (location : Option Location)
    (schedule : Schedule) (when : Int) (get_next : Bool) (σ : CalcState) :
    Except PyError (Option (String × Rat × Rat) × CalcState) :=
  let testDate := dateOf when
  if schedule.meta.type = ScheduleType.timeblocks then do
    let (currentBlock, σ1) ← get_block compute location schedule when false σ
    let (nextBlock, σ2) ← get_block compute location schedule when true σ1
    if get_next then
      gwTbNext compute location schedule when testDate currentBlock nextBlock σ2
    else
      gwTbCurrent compute location when testDate currentBlock σ2
  else if schedule.meta.type = ScheduleType.days then
    (gwDays schedule when get_next).map (fun r => (r, σ))
  else
    .ok (none, σ)

/-- Pure value twin of `get_wallpaper`. -/
def get_wallpaperP (compute : SolarKey → Option Nat) (location : Option Location)
    (schedule : Schedule) (when : Int) (get_next : Bool) :
    Except PyError (Option (String × Rat × Rat)) :=
  let testDate := dateOf when
  if schedule.meta.type = ScheduleType.timeblocks then do
    let currentBlock ← get_blockP compute location schedule when false
    let nextBlock ← get_blockP compute location schedule when true
    if get_next then
      gwTbNextP compute location schedule when testDate currentBlock nextBlock
    else
      gwTbCurrentP compute location when testDate currentBlock
  else if schedule.meta.type = ScheduleType.days then
    gwDays schedule when get_next
  else
    .ok none

/-- Simulation relation between a stateful run and its pure value twin: the
run produces the twin's value (or the same exception) and a consistent final
cache. -/
def Sim {α : Type} (compute : SolarKey → Option Nat)
    (e : Except PyError (α × CalcState)) (p : Except PyError α) : Prop :=
  ∃ σ' : CalcState, e = p.map (fun v => (v, σ')) ∧ Consistent compute σ'.cache

/-- Python `\s` (ASCII fragment): the whitespace recognized by `str.strip`,
`re`'s `\s` and `strptime`'s whitespace matching. -/
def isWs (c : Char) : Bool :=
  decide (c = ' ') || decide (c = '\t') || decide (c = '\n') || decide (c = '\r')
    || decide (c.toNat = 11) || decide (c.toNat = 12)

/-- `str.strip()`. -/
def stripList (cs : List Char) : List Char :=
  ((cs.dropWhile isWs).reverse.dropWhile isWs).reverse

/-- Worker for `re.sub(r'\s*:\s*', ':', spec)`: `pend` buffers a run of
whitespace whose fate (kept, or absorbed by a following colon) is not yet
known; `afterColon` drops the whitespace that follows a just-emitted colon. -/
def subColonAux (pend : List Char) (afterColon : Bool) : List Char → List Char
  | [] => pend.reverse
  | c :: rest =>
    if c = ':' then ':' :: subColonAux [] true rest
    else if isWs c then
      if afterColon then subColonAux [] true rest
      else subColonAux (c :: pend) false rest
    else pend.reverse ++ (c :: subColonAux [] false rest)

/-- `re.sub(r'\s*:\s*', ':', spec)`: delete whitespace adjacent to each
colon. -/
def subColon (cs : List Char) : List Char := subColonAux [] false cs

/-- ASCII digit test. -/
def isDig (c : Char) : Bool := decide ('0' ≤ c) && decide (c ≤ '9')

/-- Numeric value of an ASCII digit. -/
def digitVal (c : Char) : Nat := c.toNat - 48

/-- The `%I` directive of `strptime` (regex `1[0-2]|0[1-9]|[1-9]`, matched
greedily): hour 1-12 in one or two digits, returning the rest of the input. -/
def matchHourI (cs : List Char) : Option (Nat × List Char) :=
  match cs with
  | c :: rest =>
    if c = '1' then
      match rest with
      | c2 :: rest2 =>
        if decide ('0' ≤ c2) && decide (c2 ≤ '2') then some (10 + digitVal c2, rest2)
        else some (1, rest)
      | [] => some (1, [])
    else if c = '0' then
      match rest with
      | c2 :: rest2 =>
        if decide ('1' ≤ c2) && decide (c2 ≤ '9') then some (digitVal c2, rest2) else none
      | [] => none
    else if decide ('1' ≤ c) && decide (c ≤ '9') then some (digitVal c, rest)
    else none
  | [] => none

/-- The tail `\s+(am|pm)$` of the `"%I:%M %p"` pattern (the literal space in a
`strptime` format compiles to `\s+`, i.e. at least one whitespace character);
the input is already lowercased.  Returns whether the marker is `pm`. -/
def matchTail (cs : List Char) : Option Bool :=
  match cs with
  | c :: rest =>
    if isWs c then
      let r := rest.dropWhile isWs
      if r = ['a', 'm'] then some false
      else if r = ['p', 'm'] then some true
      else none
    else none
  | [] => none

/-- The `%M` directive (`[0-5]\d|\d`) followed by the tail, with the regex
backtracking from the two-digit to the one-digit alternative when the tail
fails to match. -/
def matchMinute : List Char → Option (Nat × Bool)
  | c1 :: c2 :: rest =>
    if isDig c1 && decide (c1 ≤ '5') && isDig c2 then
      match matchTail rest with
      | some pm => some (digitVal c1 * 10 + digitVal c2, pm)
      | none =>
        match matchTail (c2 :: rest) with
        | some pm => some (digitVal c1, pm)
        | none => none
    else if isDig c1 then
      match matchTail (c2 :: rest) with
      | some pm => some (digitVal c1, pm)
      | none => none
    else none
  | _ => none

/-- `strptime`'s 12-hour to 24-hour conversion for `%I` with `%p`. -/
def hourTo24 (h : Nat) (pm : Bool) : Nat :=
  if pm then (if h = 12 then 12 else h + 12) else (if h = 12 then 0 else h)

/-- `datetime.strptime(s, "%I:%M %p").time()` on a lowercased input, as
seconds of day; `none` is a `ValueError`. -/
def strptimeIMp (cs : List Char) : Option Nat :=
  match matchHourI cs with
  | some (h, rest) =>
    match rest with
    | c :: rest2 =>
      if c = ':' then
        match matchMinute rest2 with
        | some (m, pm) => some (3600 * hourTo24 h pm + 60 * m)
        | none => none
      else none
    | [] => none
  | none => none

/-- `spec.replace(" ", "")`. -/
def removeSpaces (cs : List Char) : List Char := cs.filter (fun c => !(decide (c = ' ')))

/-- `time.fromisoformat` restricted to the `HH:MM[:SS]` shapes the engine
documents (fractional seconds are not modelled), as seconds of day. -/
def fromIso (cs : List Char) : Option Nat :=
  match cs with
  | [h1, h2, ':', m1, m2] =>
    if isDig h1 && isDig h2 && isDig m1 && isDig m2 then
      let hv := digitVal h1 * 10 + digitVal h2
      let mv := digitVal m1 * 10 + digitVal m2
      if hv ≤ 23 ∧ mv ≤ 59 then some (3600 * hv + 60 * mv) else none
    else none
  | [h1, h2, ':', m1, m2, ':', s1, s2] =>
    if isDig h1 && isDig h2 && isDig m1 && isDig m2 && isDig s1 && isDig s2 then
      let hv := digitVal h1 * 10 + digitVal h2
      let mv := digitVal m1 * 10 + digitVal m2
      let sv := digitVal s1 * 10 + digitVal s2
      if hv ≤ 23 ∧ mv ≤ 59 ∧ sv ≤ 59 then some (3600 * hv + 60 * mv + sv) else none
    else none
  | _ => none

/-- Parse failure of `_parse_time_spec` (a Python `ValueError`). -/
inductive ParseErr
  | valueError
deriving DecidableEq

/-- A regex `\w` character. -/
def isWordChar (c : Char) : Bool :=
  isDig c || (decide ('a' ≤ c) && decide (c ≤ 'z'))
    || (decide ('A' ≤ c) && decide (c ≤ 'Z')) || decide (c = '_')

/-- The accepted solar event names (`ACCEPTED_SOLAR_EVENTS`). -/
def acceptedSolarEvents : List String := solarFallbacks.map (fun p => p.1)

/-- Digits-to-number. -/
def digitsVal (ds : List Char) : Nat := ds.foldl (fun a c => a * 10 + digitVal c) 0

/-- The solar branch of `_parse_time_spec` (lines 276-295): full match of
`^(\w+)(?:([+-])(\d+))?m?$` on the lowered spec, whitelist check, signed
offset. -/
def parseSolar (cs : List Char) : Except ParseErr TimeSpec :=
  let event := cs.takeWhile isWordChar
  let rest := cs.dropWhile isWordChar
  if event = [] then .error .valueError
  else
    match rest with
    | [] =>
      if acceptedSolarEvents.contains (String.mk event) then
        .ok (.solar (String.mk event) 0)
      else .error .valueError
    | c :: rest2 =>
      if c = '+' ∨ c = '-' then
        let ds := rest2.takeWhile isDig
        let rest3 := rest2.dropWhile isDig
        if ds = [] then .error .valueError
        else if rest3 = [] ∨ rest3 = ['m'] then
          if acceptedSolarEvents.contains (String.mk event) then
            .ok (.solar (String.mk event)
              ((if c = '-' then -1 else 1) * (digitsVal ds : Int)))
          else .error .valueError
        else .error .valueError
      else .error .valueError

/-- Substring test (`pat in s`). -/
def hasSub (pat l : List Char) : Bool := decide (pat <:+: l)

/-- `ScheduleManager._parse_time_spec` (lines 244-295): strip and lowercase,
then try in order the am/pm grammar, the 24-hour grammar, and the solar
grammar. -/
def parse_time_spec (s : String) : Except ParseErr TimeSpec :=
  let spec := (stripList s.toList).map lowerChar
  if hasSub ['a', 'm'] spec || hasSub ['p', 'm'] spec then
    match strptimeIMp (subColon spec) with
    | some t => .ok (.absolute t)
    | none => .error .valueError
  else if spec.contains ':' then
    match fromIso (removeSpaces spec) with
    | some t => .ok (.absolute t)
    | none => .error .valueError
  else
    parseSolar spec

/-- Severity levels of `ValidationResult` messages. -/
inductive Level
  | error
  | warning
deriving DecidableEq

/-- One `ValidationResult.add(check, level, message)` call.  The formatted
message text is elided; `about` keeps the block names interpolated into it
(empty when the message names no blocks). -/
structure VMsg where
  check : String
  level : Level
  about : List String := []
deriving DecidableEq

def overlapCheck : String := "schedule_overlap"

def gapCheck : String := "schedule_gap"

def coverageCheck : String := "schedule_coverage"

/-- The midnight-crossing normalization of `Validator._analyze_time_coverage`
(lines 453-457): an end at or before its start is replaced by
`time(23, 59, 59)`. -/
def normEnd (start end_ : Int) : Int := if end_ ≤ start then 86399 else end_

/-- One iteration of the adjacent-pair loop of
`Validator._analyze_time_coverage` (lines 449-472), for a consecutive pair of
the sorted blocks `(name, start, end)`: an overlap warning when the (possibly
normalized) current end exceeds the next start by more than the one-second
tolerance, else a gap warning when the next start exceeds it by more than one
second. -/
def pairMsg (p : (String × Int × Int) × (String × Int × Int)) : List VMsg :=
  let ce := normEnd p.1.2.1 p.1.2.2
  if ce - p.2.2.1 > 1 then [⟨overlapCheck, .warning, [p.1.1, p.2.1]⟩]
  else if p.2.2.1 - ce > 1 then [⟨gapCheck, .warning, [p.1.1, p.2.1]⟩]
  else []

/-- The wraparound check of `Validator._analyze_time_coverage`
(lines 474-492): gap from the last block's (normalized) end to the first
block's start; the emitted message names no blocks. -/
def circularMsg (first last : String × Int × Int) : List VMsg :=
  let le := normEnd last.2.1 last.2.2
  if first.2.1 - le > 1 then [⟨gapCheck, .warning, []⟩] else []

/-- Raw coverage of one block (lines 496-508): midnight-crossing blocks are
split at `23:59:59`/`00:00`. -/
def blockCoverage (b : String × Int × Int) : Int :=
  if b.2.2 ≤ b.2.1 then (86399 - b.2.1) + b.2.2 else b.2.2 - b.2.1

/-- The total-coverage warning (lines 510-515): warn when the summed coverage
differs from 24 hours by more than 0.1 hours, i.e. `|total - 86400| > 360`
seconds exactly (the two directions differ only in message text). -/
def coverageMsg (blocks : List (String × Int × Int)) : List VMsg :=
  let total := (blocks.map blockCoverage).sum
  if total < 86400 - 360 ∨ 86400 + 360 < total then [⟨coverageCheck, .warning, []⟩] else []

/-- `Validator._analyze_time_coverage` (validate.py lines 443-521) on
already-parsed `(name, start, end)` triples with times as seconds of day.
`blocks[0]` on an empty list raises `IndexError`; the final
`self.test_results` bookkeeping (lines 517-521, initialised by
`validate_schedule`) adds no messages and is elided. -/
def v_analyze (blocks : List (String × Int × Int)) : Except PyError (List VMsg) :=
  let sorted := sortOn (fun b => b.2.1) blocks
  match sorted with
  | [] => .error .indexError
  | b0 :: rest =>
    .ok (((sorted.zip rest).map pairMsg).flatten
      ++ circularMsg b0 (rest.getLastD b0)
      ++ coverageMsg sorted)

/-- A Python value that is either a `datetime` or a `time`, as stored in the
loop variables of `ScheduleValidator._analyze_time_coverage` (the schedule-side
copy of the coverage analyzer, validate.py lines 92-183). -/
inductive PyTimeVal
  | dt (v : Int)
  | tod (v : Int)
deriving DecidableEq

/-- Python `<=` on such values: comparing a `datetime` with a `time` raises
`TypeError`. -/
def pyLeTV : PyTimeVal → PyTimeVal → Except PyError Bool
  | .dt a, .dt b => .ok (decide (a ≤ b))
  | .tod a, .tod b => .ok (decide (a ≤ b))
  | _, _ => .error .typeError

/-- `datetime.combine(date.today(), t)`: the second argument must be a `time`;
passing a `datetime` raises `TypeError`. -/
def pyCombine (d : Int) : PyTimeVal → Except PyError Int
  | .tod t => .ok (combine d t)
  | .dt _ => .error .typeError

/-- Lines 101-109 of `ScheduleValidator._analyze_time_coverage`: resolve every
block to concrete datetimes on the test date, bumping a midnight-crossing end
by one day.  Resolution goes through the solar calculator; its pure value twin
is used (`get_wallpaper_sim` shows the cache does not affect values). -/
def svBuildBlocks (compute : SolarKey → Option Nat) (location : Option Location)
    (testDate : Int) : List TimeBlock → Except PyError (List (String × Int × Int))
  | [] => .ok []
  | b :: rest => do
    let s ← resolve_datetimeP compute location b.start testDate
    let e0 ← resolve_datetimeP compute location b.end_ testDate
    let e1 := if e0 ≤ s then e0 + 86400 else e0
    let acc ← svBuildBlocks compute location testDate rest
    pure ((b.name, s, e1) :: acc)

/-- The adjacent-pair loop of `ScheduleValidator._analyze_time_coverage`
(lines 115-135).  The entries hold datetimes, so
`datetime.combine(date.today(), current_end)` (line 126) raises `TypeError`. -/
def svPairMsgs (today : Int) :
    List ((String × Int × Int) × (String × Int × Int)) → Except PyError (List VMsg)
  | [] => .ok []
  | (cur, nxt) :: rest => do
    let cle ← pyLeTV (.dt cur.2.2) (.dt cur.2.1)
    let ce1 := if cle then PyTimeVal.tod 86399 else PyTimeVal.dt cur.2.2
    let nle ← pyLeTV (.dt nxt.2.2) (.dt nxt.2.1)
    let _ne1 := if nle then PyTimeVal.tod 86399 else PyTimeVal.dt nxt.2.2
    let ceDt ← pyCombine today ce1
    let nsDt ← pyCombine today (.dt nxt.2.1)
    let msgs ← svPairMsgs today rest
    if ceDt - nsDt > 1 then pure (⟨overlapCheck, Level.warning, [cur.1, nxt.1]⟩ :: msgs)
    else if nsDt - ceDt > 1 then pure (⟨gapCheck, Level.warning, [cur.1, nxt.1]⟩ :: msgs)
    else pure msgs

/-- The total-coverage summation of `ScheduleValidator._analyze_time_coverage`
(lines 157-170), which also feeds datetimes to `datetime.combine`. -/
def svCoverage (today : Int) : List (String × Int × Int) → Except PyError Int
  | [] => .ok 0
  | b :: rest => do
    let c ←
      if b.2.2 ≤ b.2.1 then do
        let m ← pyCombine today (.tod 86399)
        let s ← pyCombine today (.dt b.2.1)
        let e ← pyCombine today (.dt b.2.2)
        let z ← pyCombine today (.tod 0)
        pure ((m - s) + (e - z))
      else do
        let e ← pyCombine today (.dt b.2.2)
        let s ← pyCombine today (.dt b.2.1)
        pure (e - s)
    let acc ← svCoverage today rest
    pure (c + acc)

/-- `ScheduleValidator._analyze_time_coverage` (validate.py lines 92-183).
Beyond the `datetime`-as-`time` `TypeError`s, line 181 reads
`self.test_results`, an attribute `ScheduleValidator.__init__` never sets, so
even a run surviving the combines would end in `AttributeError`. -/
def sv_analyze_time_coverage (compute : SolarKey → Option Nat)
    (location : Option Location) (schedule : Schedule) (testDate today : Int) :
    Except PyError (List VMsg) :=
  if schedule.timeblocks = [] then .ok []
  else do
    let blocks ← svBuildBlocks compute location testDate schedule.timeblocks
    let sorted := sortOn (fun b => b.2.1) blocks
    match sorted with
    | [] => .ok []
    | b0 :: rest => do
      let pm ← svPairMsgs today (sorted.zip rest)
      let last := rest.getLastD b0
      let lle ← pyLeTV (.dt last.2.2) (.dt last.2.1)
      let le1 := if lle then PyTimeVal.tod 86399 else PyTimeVal.dt last.2.2
      let fle ← pyLeTV (.dt b0.2.2) (.dt b0.2.1)
      let _fe1 := if fle then PyTimeVal.tod 86399 else PyTimeVal.dt b0.2.2
      let leDt ← pyCombine today le1
      let fsDt ← pyCombine today (.dt b0.2.1)
      let circ := if fsDt - leDt > 1 then [⟨gapCheck, Level.warning, []⟩] else []
      let total ← svCoverage today sorted
      let cov :=
        if total < 86400 - 360 ∨ 86400 + 360 < total then [⟨coverageCheck, Level.warning, []⟩]
        else []
      let _msgs := pm ++ circ ++ cov
      .error .attributeError

/-- An external astronomical function that always fails; irrelevant for
schedules whose time specs are all absolute. -/
def compute0 : SolarKey → Option Nat := fun _ => none

/-- An external astronomical function that always succeeds. -/
def compute1 : SolarKey → Option Nat := fun _ => some 23456

/-- Project an engine run onto the image path it reports. -/
def imageOf (r : Except PyError (Option (String × Rat × Rat) × CalcState)) :
    Except PyError (Option String) :=
  r.map (fun p => p.1.map (fun q => q.1))

/-- A days schedule with a single non-shuffled one-image Monday entry. -/
def mondaySolo : Schedule :=
  { meta := { type := .days, name := "p" },
    days := [("monday", { images := ["a.jpg"], shuffle := false })] }

/-- A days schedule with a single shuffled one-image Monday entry. -/
def mondayShuffle : Schedule :=
  { meta := { type := .days, name := "p" },
    days := [("monday", { images := ["a.jpg"], shuffle := true })] }

/-- The midnight-crossing block of the spec's testable scenario:
`start="22:00"`, `end="06:00"`, two images. -/
def nightBlock : TimeBlock :=
  { name := "night", start := .absolute (22 * 3600), end_ := .absolute (6 * 3600),
    images := ["n1.jpg", "n2.jpg"], shuffle := false }

def nightSchedule : Schedule :=
  { meta := { type := .timeblocks, name := "p" }, timeblocks := [nightBlock] }

/-- A shuffled 08:00-20:00 block with two images. -/
def dayShuffleBlock : TimeBlock :=
  { name := "day", start := .absolute (8 * 3600), end_ := .absolute (20 * 3600),
    images := ["a.jpg", "b.jpg"], shuffle := true }

def dayShuffleSchedule : Schedule :=
  { meta := { type := .timeblocks, name := "p" }, timeblocks := [dayShuffleBlock] }

/-- A single absolute 08:00-20:00 block. -/
def svOneBlock : Schedule :=
  { meta := { type := .timeblocks, name := "p" },
    timeblocks := [{ name := "work", start := .absolute (8 * 3600),
                     end_ := .absolute (20 * 3600), images := ["w.jpg"] }] }

/-- A run of `k` spaces. -/
def spaces (k : Nat) : List Char := List.replicate k ' '

/-- The ASCII digit character of a value below ten. -/
def dchar : Nat → Char
  | 0 => '0'
  | 1 => '1'
  | 2 => '2'
  | 3 => '3'
  | 4 => '4'
  | 5 => '5'
  | 6 => '6'
  | 7 => '7'
  | 8 => '8'
  | 9 => '9'
  | _ => '0'

/-- An hour 1-12 rendered in one or two digits (`pad` zero-pads hours below
ten). -/
def hourChars (h : Nat) (pad : Bool) : List Char :=
  if h < 10 then (if pad then ['0', dchar h] else [dchar h]) else ['1', dchar (h - 10)]

/-- First letter of the am/pm marker, in either letter case. -/
def amLetter (pm upper : Bool) : Char :=
  if pm then (if upper then 'P' else 'p') else (if upper then 'A' else 'a')

/-- Second letter of the am/pm marker, in either letter case. -/
def emLetter (upper : Bool) : Char := if upper then 'M' else 'm'

/-- A 12-hour time string: one or two hour digits, a colon with `s1`/`s2`
surrounding spaces, two minute digits, `s3` spaces, then am/pm in any letter
case. -/
def twelveHourInput (h : Nat) (pad : Bool) (m1 m2 s1 s2 s3 : Nat) (pm u1 u2 : Bool) :
    List Char :=
  hourChars h pad ++ spaces s1
    ++ ':' :: (spaces s2 ++ dchar m1 :: dchar m2 :: (spaces s3 ++ [amLetter pm u1, emLetter u2]))

theorem consistent_nil (compute : SolarKey → Option Nat) : Consistent compute [] := by
  intro k v h
  simp [assocFind] at h

/-- `resolve_time` started in a consistent state returns the pure value and
leaves a consistent state behind. -/
theorem resolve_time_sim (compute : SolarKey → Option Nat) (event : String) (dateObj : Int)
    (location : Option Location) (σ : CalcState) (h : Consistent compute σ.cache) :
    ∃ σ' : CalcState,
      resolve_time compute event dateObj location σ
        = (resolve_timeP compute event dateObj location).map (fun v => (v, σ'))
      ∧ Consistent compute σ'.cache := by
  cases location with
  | none =>
    refine ⟨σ, ?_, h⟩
    rfl
  | some loc =>
    simp only [resolve_time, resolve_timeP]
    set key : SolarKey :=
      (lowerStr event, dateObj, loc.latitude, loc.longitude, loc.timezone) with hkey
    cases hfind : assocFind σ.cache key with
    | some v =>
      have hv := h key v hfind
      refine ⟨σ, ?_, h⟩
      simp [hfind, hv, Except.map]
    | none =>
      cases hkv : keyValue compute key with
      | some v =>
        by_cases hmid : lowerStr event = midnightStr
        · have hv0 : v = 0 := by
            simp [keyValue, hkey, hmid] at hkv
            omega
          refine ⟨{ σ with cache := (key, 0) :: σ.cache }, ?_, ?_⟩
          · simp [hfind, hmid, hkv, hv0, Except.map]
          · intro k w hw
            by_cases hk : k = key
            · subst hk
              simp [assocFind] at hw
              simp [hkv, hv0, hw]
            · apply h
              simpa [assocFind, hk] using hw
        · have hcomp : compute key = some v := by
            simpa [keyValue, hkey, hmid] using hkv
          refine ⟨{ σ with cache := (key, v) :: σ.cache, computes := σ.computes + 1 }, ?_, ?_⟩
          · simp [hfind, hmid, hcomp, hkv, Except.map]
          · intro k w hw
            by_cases hk : k = key
            · subst hk
              simp [assocFind] at hw
              subst hw
              exact hkv
            · apply h
              simpa [assocFind, hk] using hw
      | none =>
        have hmid : ¬ lowerStr event = midnightStr := by
          intro hmid
          simp [keyValue, hkey, hmid] at hkv
        have hcomp : compute key = none := by
          simpa [keyValue, hkey, hmid] using hkv
        refine ⟨{ σ with computes := σ.computes + 1,
                         errorCache :=
                           if σ.errorCache.contains loc.timezone then σ.errorCache
                           else loc.timezone :: σ.errorCache }, ?_, h⟩
        simp [hfind, hmid, hcomp, hkv]

/-- Reduction of `Except` bind on a success value. -/
@[simp] theorem ebind_ok {ε α β : Type} (a : α) (f : α → Except ε β) :
    (Except.ok a >>= f) = f a := rfl

/-- Reduction of `Except` bind on an error. -/
@[simp] theorem ebind_error {ε α β : Type} (e : ε) (f : α → Except ε β) :
    ((Except.error e : Except ε α) >>= f) = Except.error e := rfl

/-- `pure` on `Except` is `Except.ok`. -/
@[simp] theorem epure_eq {ε α : Type} (a : α) :
    (pure a : Except ε α) = Except.ok a := rfl

theorem resolve_datetime_sim (compute : SolarKey → Option Nat) (location : Option Location)
    (spec : TimeSpec) (baseDate : Int) (σ : CalcState) (h : Consistent compute σ.cache) :
    Sim compute (resolve_datetime compute location spec baseDate σ)
      (resolve_datetimeP compute location spec baseDate) := by
  cases spec with
  | absolute t => exact ⟨σ, rfl, h⟩
  | solar ev off =>
    obtain ⟨σ', heq, hc⟩ := resolve_time_sim compute ev baseDate location σ h
    refine ⟨σ', ?_, hc⟩
    simp only [resolve_datetime, resolve_datetimeP, heq]
    cases resolve_timeP compute ev baseDate location <;> simp [Except.map]

theorem findCurrentBlock_sim (compute : SolarKey → Option Nat) (location : Option Location)
    (when testDate : Int) (blocks : List TimeBlock) :
    ∀ (σ : CalcState), Consistent compute σ.cache →
    Sim compute (findCurrentBlock compute location when testDate blocks σ)
      (findCurrentBlockP compute location when testDate blocks) := by
  induction blocks with
  | nil => intro σ h; exact ⟨σ, rfl, h⟩
  | cons block rest ih =>
    intro σ h
    obtain ⟨σ1, h1, hc1⟩ := resolve_datetime_sim compute location block.start testDate σ h
    cases hp1 : resolve_datetimeP compute location block.start testDate with
    | error e =>
      refine ⟨σ1, ?_, hc1⟩
      simp [findCurrentBlock, findCurrentBlockP, h1, hp1, Except.map]
    | ok start =>
      obtain ⟨σ2, h2, hc2⟩ := resolve_datetime_sim compute location block.end_ testDate σ1 hc1
      cases hp2 : resolve_datetimeP compute location block.end_ testDate with
      | error e =>
        refine ⟨σ2, ?_, hc2⟩
        simp [findCurrentBlock, findCurrentBlockP, h1, hp1, h2, hp2, Except.map]
      | ok end0 =>
        obtain ⟨σ3, h3, hc3⟩ := ih σ2 hc2
        by_cases hcond : blockMatches when start end0 = true
        · refine ⟨σ2, ?_, hc2⟩
          simp [findCurrentBlock, findCurrentBlockP, h1, hp1, h2, hp2, Except.map, hcond]
        · refine ⟨σ3, ?_, hc3⟩
          simp [findCurrentBlock, findCurrentBlockP, h1, hp1, h2, hp2, Except.map, hcond, h3]

theorem collectFutureBlocks_sim (compute : SolarKey → Option Nat) (location : Option Location)
    (when d : Int) (onlyFuture : Bool) (blocks : List TimeBlock) :
    ∀ (σ : CalcState), Consistent compute σ.cache →
    Sim compute (collectFutureBlocks compute location when d onlyFuture blocks σ)
      (collectFutureBlocksP compute location when d onlyFuture blocks) := by
  induction blocks with
  | nil => intro σ h; exact ⟨σ, rfl, h⟩
  | cons block rest ih =>
    intro σ h
    obtain ⟨σ1, h1, hc1⟩ := resolve_datetime_sim compute location block.start d σ h
    cases hp1 : resolve_datetimeP compute location block.start d with
    | error e =>
      refine ⟨σ1, ?_, hc1⟩
      simp [collectFutureBlocks, collectFutureBlocksP, h1, hp1, Except.map]
    | ok start =>
      obtain ⟨σ2, h2, hc2⟩ := resolve_datetime_sim compute location block.end_ d σ1 hc1
      cases hp2 : resolve_datetimeP compute location block.end_ d with
      | error e =>
        refine ⟨σ2, ?_, hc2⟩
        simp [collectFutureBlocks, collectFutureBlocksP, h1, hp1, h2, hp2, Except.map]
      | ok end0 =>
        obtain ⟨σ3, h3, hc3⟩ := ih σ2 hc2
        refine ⟨σ3, ?_, hc3⟩
        cases hp3 : collectFutureBlocksP compute location when d onlyFuture rest with
        | error e =>
          simp [collectFutureBlocks, collectFutureBlocksP, h1, hp1, h2, hp2, h3, hp3, Except.map]
        | ok acc =>
          cases onlyFuture with
          | false =>
            simp [collectFutureBlocks, collectFutureBlocksP, h1, hp1, h2, hp2, h3, hp3,
              Except.map]
          | true =>
            simp only [collectFutureBlocks, collectFutureBlocksP, h1, hp1, h2, hp2, h3, hp3,
              Except.map, ebind_ok, ebind_error, epure_eq]
            split <;> rfl

theorem get_block_sim (compute : SolarKey → Option Nat) (location : Option Location)
    (schedule : Schedule) (when : Int) (get_next : Bool) (σ : CalcState)
    (h : Consistent compute σ.cache) :
    Sim compute (get_block compute location schedule when get_next σ)
      (get_blockP compute location schedule when get_next) := by
  by_cases htype : schedule.meta.type ≠ ScheduleType.timeblocks ∨ schedule.timeblocks = []
  · exact ⟨σ, by simp [get_block, get_blockP, htype, Except.map], h⟩
  · cases get_next with
    | false =>
      have hsim := findCurrentBlock_sim compute location when (dateOf when)
        schedule.timeblocks σ h
      obtain ⟨σ', h', hc'⟩ := hsim
      exact ⟨σ', by simp [get_block, get_blockP, htype, h'], hc'⟩
    | true =>
      obtain ⟨σ1, h1, hc1⟩ := collectFutureBlocks_sim compute location when (dateOf when)
        true schedule.timeblocks σ h
      cases hp1 : collectFutureBlocksP compute location when (dateOf when) true
          schedule.timeblocks with
      | error e =>
        refine ⟨σ1, ?_, hc1⟩
        simp [get_block, get_blockP, htype, h1, hp1, Except.map]
      | ok today =>
        by_cases htoday : today = []
        · obtain ⟨σ2, h2, hc2⟩ := collectFutureBlocks_sim compute location when
            (dateOf when + 1) false schedule.timeblocks σ1 hc1
          cases hp2 : collectFutureBlocksP compute location when (dateOf when + 1) false
              schedule.timeblocks with
          | error e =>
            refine ⟨σ2, ?_, hc2⟩
            simp [get_block, get_blockP, htype, h1, hp1, h2, hp2, htoday, Except.map]
          | ok future =>
            refine ⟨σ2, ?_, hc2⟩
            cases hh : (sortByStart future).head? with
            | some p =>
              simp [get_block, get_blockP, htype, h1, hp1, h2, hp2, htoday, hh, Except.map]
            | none =>
              cases hb : schedule.timeblocks.head? with
              | some b =>
                simp [get_block, get_blockP, htype, h1, hp1, h2, hp2, htoday, hh, hb, Except.map]
              | none =>
                simp [get_block, get_blockP, htype, h1, hp1, h2, hp2, htoday, hh, hb, Except.map]
        · refine ⟨σ1, ?_, hc1⟩
          cases hh : (sortByStart today).head? with
          | some p =>
            simp [get_block, get_blockP, htype, h1, hp1, htoday, hh, Except.map]
          | none =>
            cases hb : schedule.timeblocks.head? with
            | some b =>
              simp [get_block, get_blockP, htype, h1, hp1, htoday, hh, hb, Except.map]
            | none =>
              simp [get_block, get_blockP, htype, h1, hp1, htoday, hh, hb, Except.map]

theorem get_block_times_sim (compute : SolarKey → Option Nat) (location : Option Location)
    (block : TimeBlock) (testDate : Int) (σ : CalcState) (h : Consistent compute σ.cache) :
    Sim compute (get_block_times compute location block testDate σ)
      (get_block_timesP compute location block testDate) := by
  obtain ⟨σ1, h1, hc1⟩ := resolve_datetime_sim compute location block.start testDate σ h
  cases hp1 : resolve_datetimeP compute location block.start testDate with
  | error e =>
    refine ⟨σ1, ?_, hc1⟩
    simp [get_block_times, get_block_timesP, h1, hp1, Except.map]
  | ok start =>
    obtain ⟨σ2, h2, hc2⟩ := resolve_datetime_sim compute location block.end_ testDate σ1 hc1
    refine ⟨σ2, ?_, hc2⟩
    cases hp2 : resolve_datetimeP compute location block.end_ testDate with
    | error e =>
      simp [get_block_times, get_block_timesP, h1, hp1, h2, hp2, Except.map]
    | ok end0 =>
      simp [get_block_times, get_block_timesP, h1, hp1, h2, hp2, Except.map]

theorem effective_block_times_sim (compute : SolarKey → Option Nat)
    (location : Option Location) (block : TimeBlock) (when testDate : Int) (σ : CalcState)
    (h : Consistent compute σ.cache) :
    Sim compute (effective_block_times compute location block when testDate σ)
      (effective_block_timesP compute location block when testDate) := by
  obtain ⟨σ1, h1, hc1⟩ := get_block_times_sim compute location block testDate σ h
  cases hp1 : get_block_timesP compute location block testDate with
  | error e =>
    refine ⟨σ1, ?_, hc1⟩
    simp [effective_block_times, effective_block_timesP, h1, hp1, Except.map]
  | ok t =>
    by_cases hcond : when < t.1 ∧ dateOf t.2.1 ≠ dateOf t.1
    · obtain ⟨σ2, h2, hc2⟩ := get_block_times_sim compute location block (testDate - 1) σ1 hc1
      cases hp2 : get_block_timesP compute location block (testDate - 1) with
      | error e =>
        refine ⟨σ2, ?_, hc2⟩
        simp [effective_block_times, effective_block_timesP, h1, hp1, h2, hp2, hcond, Except.map]
      | ok p =>
        refine ⟨σ2, ?_, hc2⟩
        by_cases hcond2 : p.1 ≤ when ∧ when < p.2.1
        · simp [effective_block_times, effective_block_timesP, h1, hp1, h2, hp2, hcond, hcond2,
            Except.map]
        · simp [effective_block_times, effective_block_timesP, h1, hp1, h2, hp2, hcond, hcond2,
            Except.map]
    · refine ⟨σ1, ?_, hc1⟩
      simp [effective_block_times, effective_block_timesP, h1, hp1, hcond, Except.map]

theorem gwFromNext_sim (compute : SolarKey → Option Nat) (location : Option Location)
    (testDate : Int) (nextBlock : Option TimeBlock) (σ : CalcState)
    (h : Consistent compute σ.cache) :
    Sim compute (gwFromNext compute location testDate nextBlock σ)
      (gwFromNextP compute location testDate nextBlock) := by
  cases nextBlock with
  | none => exact ⟨σ, rfl, h⟩
  | some nb =>
    by_cases himg : nb.images ≠ []
    · obtain ⟨σ1, h1, hc1⟩ := get_block_times_sim compute location nb testDate σ h
      refine ⟨σ1, ?_, hc1⟩
      cases hp1 : get_block_timesP compute location nb testDate with
      | error e => simp [gwFromNext, gwFromNextP, himg, h1, hp1, Except.map]
      | ok nt =>
        cases hpi : pyIndex nb.images 0 with
        | error e => simp [gwFromNext, gwFromNextP, himg, h1, hp1, hpi, Except.map]
        | ok img => simp [gwFromNext, gwFromNextP, himg, h1, hp1, hpi, Except.map]
    · exact ⟨σ, by simp [gwFromNext, gwFromNextP, himg, Except.map], h⟩

theorem gwFirstFallback_sim (compute : SolarKey → Option Nat) (location : Option Location)
    (schedule : Schedule) (testDate : Int) (σ : CalcState)
    (h : Consistent compute σ.cache) :
    Sim compute (gwFirstFallback compute location schedule testDate σ)
      (gwFirstFallbackP compute location schedule testDate) := by
  cases hb : schedule.timeblocks.head? with
  | none => exact ⟨σ, by simp [gwFirstFallback, gwFirstFallbackP, hb, Except.map], h⟩
  | some fb =>
    by_cases himg : fb.images ≠ []
    · obtain ⟨σ1, h1, hc1⟩ := get_block_times_sim compute location fb testDate σ h
      refine ⟨σ1, ?_, hc1⟩
      cases hp1 : get_block_timesP compute location fb testDate with
      | error e => simp [gwFirstFallback, gwFirstFallbackP, hb, himg, h1, hp1, Except.map]
      | ok ft =>
        cases hpi : pyIndex fb.images 0 with
        | error e => simp [gwFirstFallback, gwFirstFallbackP, hb, himg, h1, hp1, hpi, Except.map]
        | ok img => simp [gwFirstFallback, gwFirstFallbackP, hb, himg, h1, hp1, hpi, Except.map]
    · exact ⟨σ, by simp [gwFirstFallback, gwFirstFallbackP, hb, himg, Except.map], h⟩

theorem gwTbNext_sim (compute : SolarKey → Option Nat) (location : Option Location)
    (schedule : Schedule) (when testDate : Int)
    (currentBlock nextBlock : Option TimeBlock) (σ : CalcState)
    (h : Consistent compute σ.cache) :
    Sim compute (gwTbNext compute location schedule when testDate currentBlock nextBlock σ)
      (gwTbNextP compute location schedule when testDate currentBlock nextBlock) := by
  cases currentBlock with
  | none =>
    obtain ⟨σ1, h1, hc1⟩ := gwFromNext_sim compute location testDate nextBlock σ h
    exact ⟨σ1, by simpa [gwTbNext, gwTbNextP] using h1, hc1⟩
  | some cb =>
    by_cases himg : cb.images ≠ []
    · obtain ⟨σ1, h1, hc1⟩ := effective_block_times_sim compute location cb when testDate σ h
      cases hp1 : effective_block_timesP compute location cb when testDate with
      | error e =>
        refine ⟨σ1, ?_, hc1⟩
        simp [gwTbNext, gwTbNextP, himg, h1, hp1, Except.map]
      | ok t =>
        by_cases hdur : durLe t.2.2 cb.images.length (t.2.1 - when) = true
        · by_cases hshuf : cb.shuffle = true
          · refine ⟨σ1, ?_, hc1⟩
            cases hpi : pyIndex cb.images 0 with
            | error e =>
              simp [gwTbNext, gwTbNextP, himg, h1, hp1, hdur, hshuf, hpi, Except.map]
            | ok img =>
              simp [gwTbNext, gwTbNextP, himg, h1, hp1, hdur, hshuf, hpi, Except.map]
          · refine ⟨σ1, ?_, hc1⟩
            cases hpi : pyIndex cb.images
                (Int.emod (get_image_index cb when t.1 t.2.1 false + 1) cb.images.length) with
            | error e =>
              simp [gwTbNext, gwTbNextP, himg, h1, hp1, hdur, hshuf, hpi, Except.map]
            | ok img =>
              simp [gwTbNext, gwTbNextP, himg, h1, hp1, hdur, hshuf, hpi, Except.map]
        · cases nextBlock with
          | some nb =>
            by_cases hnimg : nb.images ≠ []
            · obtain ⟨σ2, h2, hc2⟩ := get_block_times_sim compute location nb testDate σ1 hc1
              refine ⟨σ2, ?_, hc2⟩
              cases hp2 : get_block_timesP compute location nb testDate with
              | error e =>
                simp [gwTbNext, gwTbNextP, himg, h1, hp1, hdur, hnimg, h2, hp2, Except.map]
              | ok nt =>
                cases hpi : pyIndex nb.images 0 with
                | error e =>
                  simp [gwTbNext, gwTbNextP, himg, h1, hp1, hdur, hnimg, h2, hp2, hpi,
                    Except.map]
                | ok img =>
                  simp [gwTbNext, gwTbNextP, himg, h1, hp1, hdur, hnimg, h2, hp2, hpi,
                    Except.map]
            · obtain ⟨σ2, h2, hc2⟩ := gwFirstFallback_sim compute location schedule testDate σ1 hc1
              refine ⟨σ2, ?_, hc2⟩
              simp [gwTbNext, gwTbNextP, himg, h1, hp1, hdur, hnimg, h2, Except.map]
          | none =>
            obtain ⟨σ2, h2, hc2⟩ := gwFirstFallback_sim compute location schedule testDate σ1 hc1
            refine ⟨σ2, ?_, hc2⟩
            simp [gwTbNext, gwTbNextP, himg, h1, hp1, hdur, h2, Except.map]
    · obtain ⟨σ1, h1, hc1⟩ := gwFromNext_sim compute location testDate nextBlock σ h
      exact ⟨σ1, by simpa [gwTbNext, gwTbNextP, himg] using h1, hc1⟩

theorem gwTbCurrent_sim (compute : SolarKey → Option Nat) (location : Option Location)
    (when testDate : Int) (currentBlock : Option TimeBlock) (σ : CalcState)
    (h : Consistent compute σ.cache) :
    Sim compute (gwTbCurrent compute location when testDate currentBlock σ)
      (gwTbCurrentP compute location when testDate currentBlock) := by
  cases currentBlock with
  | none => exact ⟨σ, rfl, h⟩
  | some cb =>
    by_cases himg : cb.images ≠ []
    · obtain ⟨σ1, h1, hc1⟩ := effective_block_times_sim compute location cb when testDate σ h
      refine ⟨σ1, ?_, hc1⟩
      cases hp1 : effective_block_timesP compute location cb when testDate with
      | error e =>
        simp [gwTbCurrent, gwTbCurrentP, himg, h1, hp1, Except.map]
      | ok t =>
        by_cases hlt : when < t.1
        · simp [gwTbCurrent, gwTbCurrentP, himg, h1, hp1, hlt, Except.map]
        · by_cases hge : t.2.1 ≤ when
          · cases hpi : pyIndex cb.images (-1) with
            | error e =>
              simp [gwTbCurrent, gwTbCurrentP, himg, h1, hp1, hlt, hge, hpi, Except.map]
            | ok img =>
              simp [gwTbCurrent, gwTbCurrentP, himg, h1, hp1, hlt, hge, hpi, Except.map]
          · by_cases hneg : get_image_index cb when t.1 t.2.1 false < 0
            · simp [gwTbCurrent, gwTbCurrentP, himg, h1, hp1, hlt, hge, hneg, Except.map]
            · cases hpi : pyIndex cb.images (get_image_index cb when t.1 t.2.1 false) with
              | error e =>
                simp [gwTbCurrent, gwTbCurrentP, himg, h1, hp1, hlt, hge, hneg, hpi, Except.map]
              | ok img =>
                simp [gwTbCurrent, gwTbCurrentP, himg, h1, hp1, hlt, hge, hneg, hpi, Except.map]
    · exact ⟨σ, by simp [gwTbCurrent, gwTbCurrentP, himg, Except.map], h⟩

/-- The engine simulation: `get_wallpaper` started in any consistent
calculator state returns the value of its pure twin (or the identical
exception), and leaves a consistent state behind. -/
theorem get_wallpaper_sim (compute : SolarKey → Option Nat) (location : Option Location)
    (schedule : Schedule) (when : Int) (get_next : Bool) (σ : CalcState)
    (h : Consistent compute σ.cache) :
    Sim compute (get_wallpaper compute location schedule when get_next σ)
      (get_wallpaperP compute location schedule when get_next) := by
  by_cases htb : schedule.meta.type = ScheduleType.timeblocks
  · obtain ⟨σ1, h1, hc1⟩ := get_block_sim compute location schedule when false σ h
    cases hp1 : get_blockP compute location schedule when false with
    | error e =>
      refine ⟨σ1, ?_, hc1⟩
      simp [get_wallpaper, get_wallpaperP, htb, h1, hp1, Except.map]
    | ok currentBlock =>
      obtain ⟨σ2, h2, hc2⟩ := get_block_sim compute location schedule when true σ1 hc1
      cases hp2 : get_blockP compute location schedule when true with
      | error e =>
        refine ⟨σ2, ?_, hc2⟩
        simp [get_wallpaper, get_wallpaperP, htb, h1, hp1, h2, hp2, Except.map]
      | ok nextBlock =>
        cases get_next with
        | true =>
          obtain ⟨σ3, h3, hc3⟩ := gwTbNext_sim compute location schedule when (dateOf when)
            currentBlock nextBlock σ2 hc2
          refine ⟨σ3, ?_, hc3⟩
          simp [get_wallpaper, get_wallpaperP, htb, h1, hp1, h2, hp2, h3, Except.map]
        | false =>
          obtain ⟨σ3, h3, hc3⟩ := gwTbCurrent_sim compute location when (dateOf when)
            currentBlock σ2 hc2
          refine ⟨σ3, ?_, hc3⟩
          simp [get_wallpaper, get_wallpaperP, htb, h1, hp1, h2, hp2, h3, Except.map]
  · by_cases hd : schedule.meta.type = ScheduleType.days
    · refine ⟨σ, ?_, h⟩
      simp [get_wallpaper, get_wallpaperP, htb, hd, Except.map]
    · exact ⟨σ, by simp [get_wallpaper, get_wallpaperP, htb, hd, Except.map], h⟩

/-- C1.  The spec claims `get_wallpaper` never raises for a structurally valid
Schedule, in particular for a valid Days schedule with a non-shuffled day
entry when the next wallpaper is requested and the sequential index wraps
past the last image.  The code contradicts this: in that branch
(schedule.py line 513) it reads the local `time_remaining`, which is assigned
only in the shuffled branch, so Python raises `UnboundLocalError`.  Run:
a one-image non-shuffled Monday entry, now = Monday 10:00, next requested. -/
theorem c1_days_next_raises_unbound_local :
    get_wallpaper compute0 none mondaySolo 36000 true {} = .error .unboundLocal := by
  decide

/-- C2.  `get_wallpaper` is deterministic: with identical
`(schedule, location, now)` inputs it returns the identical result (image and
window, or the identical exception) from any two calculator states whose
caches are consistent with the external computation — and every cache state
reachable from a fresh calculator is consistent (`consistent_nil`,
`get_wallpaper_sim`). -/
theorem c2_get_wallpaper_deterministic (compute : SolarKey → Option Nat)
    (location : Option Location) (schedule : Schedule) (when : Int) (get_next : Bool)
    (σ1 σ2 : CalcState)
    (h1 : Consistent compute σ1.cache) (h2 : Consistent compute σ2.cache) :
    (get_wallpaper compute location schedule when get_next σ1).map (fun p => p.1)
      = (get_wallpaper compute location schedule when get_next σ2).map (fun p => p.1) := by
  obtain ⟨σ1', e1, _⟩ := get_wallpaper_sim compute location schedule when get_next σ1 h1
  obtain ⟨σ2', e2, _⟩ := get_wallpaper_sim compute location schedule when get_next σ2 h2
  rw [e1, e2]
  cases get_wallpaperP compute location schedule when get_next <;> simp [Except.map]

/-- Witness for C2: the empty cache and a pre-populated consistent cache give
the same result on a concrete run. -/
theorem c2_witness :
    (get_wallpaper compute0 none nightSchedule 82800 false {}).map (fun p => p.1)
      = (get_wallpaper compute0 none nightSchedule 82800 false
          { cache := [((midnightStr, 0, 0, 0, "UTC"), 0)] }).map (fun p => p.1) :=
  c2_get_wallpaper_deterministic compute0 none nightSchedule 82800 false _ _
    (consistent_nil compute0)
    (by
      intro k v hkv
      by_cases hk : k = (midnightStr, (0 : Int), (0 : Rat), (0 : Rat), "UTC")
      · subst hk
        simp [assocFind] at hkv
        simp [keyValue, midnightStr, hkv]
      · simp [assocFind, hk] at hkv)

/-- C3.  Midnight-crossing scenario, absolute times, no location needed: with
the `"night"` block (22:00-06:00, images `n1.jpg`, `n2.jpg`), at now = 23:00
the block is the current block and the current wallpaper is `n1.jpg`
(index 0); at now = 02:00 of the next calendar day the block is still
recognized as current via previous-day anchoring and the wallpaper is
`n2.jpg` (elapsed 4h of a 4h-per-image block). -/
theorem c3_midnight_crossing_scenario :
    get_block compute0 none nightSchedule 82800 false {} = .ok (some nightBlock, {})
    ∧ imageOf (get_wallpaper compute0 none nightSchedule 82800 false {})
        = .ok (some ("n1.jpg"))
    ∧ get_block compute0 none nightSchedule 93600 false {} = .ok (some nightBlock, {})
    ∧ imageOf (get_wallpaper compute0 none nightSchedule 93600 false {})
        = .ok (some ("n2.jpg")) := by
  refine ⟨by decide, by decide, by decide, by decide⟩

/-- C8.  For a location-bearing key whose computation is defined (`midnight`,
or the external function succeeds — a "valid" event/date/location), two
consecutive `resolve_time` calls return equal values, and the second call
leaves the whole calculator state untouched: same cache keys and values, no
new invocation of the astronomical function (the `computes` counter), no new
error-log entries. -/
theorem c8_resolve_time_memoized (compute : SolarKey → Option Nat) (event : String)
    (dateObj : Int) (loc : Location) (σ0 : CalcState)
    (hvalid : lowerStr event = midnightStr ∨
      (compute (lowerStr event, dateObj, loc.latitude, loc.longitude,
        loc.timezone)).isSome = true) :
    ∃ v σ1, resolve_time compute event dateObj (some loc) σ0 = .ok (v, σ1)
      ∧ resolve_time compute event dateObj (some loc) σ1 = .ok (v, σ1) := by
  cases hfind : assocFind σ0.cache
      (lowerStr event, dateObj, loc.latitude, loc.longitude, loc.timezone) with
  | some v =>
    exact ⟨v, σ0, by simp [resolve_time, hfind], by simp [resolve_time, hfind]⟩
  | none =>
    by_cases hmid : lowerStr event = midnightStr
    · have hfind' : assocFind σ0.cache
          (midnightStr, dateObj, loc.latitude, loc.longitude, loc.timezone) = none := by
        rw [← hmid]; exact hfind
      refine ⟨0, { σ0 with
        cache := ((midnightStr, dateObj, loc.latitude, loc.longitude, loc.timezone), 0) :: σ0.cache }, ?_, ?_⟩
      · simp [resolve_time, hmid, hfind']
      · simp [resolve_time, hmid, assocFind]
    · cases hcomp : compute
          (lowerStr event, dateObj, loc.latitude, loc.longitude, loc.timezone) with
      | some t =>
        refine ⟨t, { σ0 with
          cache := ((lowerStr event, dateObj, loc.latitude, loc.longitude, loc.timezone), t) :: σ0.cache,
          computes := σ0.computes + 1 }, ?_, ?_⟩
        · simp [resolve_time, hfind, hmid, hcomp]
        · simp [resolve_time, hmid, assocFind]
      | none =>
        rcases hvalid with hv | hv
        · exact absurd hv hmid
        · rw [hcomp] at hv
          simp at hv

/-- Witness for C8: concrete successful computation, sunrise at a concrete
location, from the empty state. -/
theorem c8_witness :
    ∃ v σ1, resolve_time compute1 ("sunrise") 0
        (some { latitude := 1, longitude := 2, timezone := "UTC" }) {} = .ok (v, σ1)
      ∧ resolve_time compute1 ("sunrise") 0
          (some { latitude := 1, longitude := 2, timezone := "UTC" }) σ1 = .ok (v, σ1) :=
  c8_resolve_time_memoized compute1 ("sunrise") 0
    { latitude := 1, longitude := 2, timezone := "UTC" } {} (by decide)

/-- C10.  For a non-shuffled block with at least one image and resolved times
`start < end`, `_get_image_index` returns an index in `[0, images-1]` for
every instant — before the start and at or past the end included — so the
image-list lookup of the current-wallpaper path is always in bounds. -/
theorem c10_image_index_in_bounds (block : TimeBlock) (when start end_ : Int)
    (hsh : block.shuffle = false) (himg : block.images ≠ []) (_hlt : start < end_) :
    0 ≤ get_image_index block when start end_ false
    ∧ get_image_index block when start end_ false < (block.images.length : Int)
    ∧ ∃ img, pyIndex block.images (get_image_index block when start end_ false)
        = .ok img := by
  have hn : 1 ≤ block.images.length := by
    cases hi : block.images with
    | nil => exact absurd hi himg
    | cons a t => simp [hi]
  have hform : get_image_index block when start end_ false
      = min (max 0 (Int.tdiv ((when - start) * block.images.length) (end_ - start)))
          ((block.images.length : Int) - 1) := by
    unfold get_image_index
    have hz : ¬ block.images.length = 0 := by omega
    simp [hsh, hz]
  set idx := get_image_index block when start end_ false with hidx
  have h0 : 0 ≤ idx := by
    rw [hform]
    exact le_min (le_max_left 0 _) (by exact_mod_cast by omega)
  have hlt2 : idx < (block.images.length : Int) := by
    rw [hform]
    calc min (max 0 (Int.tdiv ((when - start) * block.images.length) (end_ - start)))
          ((block.images.length : Int) - 1) ≤ (block.images.length : Int) - 1 :=
        min_le_right _ _
      _ < (block.images.length : Int) := by omega
  refine ⟨h0, hlt2, ?_⟩
  have hj : ¬ idx < 0 := by omega
  have htn : idx.toNat < block.images.length := by omega
  refine ⟨block.images.get ⟨idx.toNat, htn⟩, ?_⟩
  simp [pyIndex, hj, h0, List.getElem?_eq_getElem htn]

/-- Witness for C10 on the night block at 23:00 with today's resolved
times. -/
theorem c10_witness :
    0 ≤ get_image_index nightBlock 82800 79200 108000 false
    ∧ get_image_index nightBlock 82800 79200 108000 false
        < (nightBlock.images.length : Int)
    ∧ ∃ img, pyIndex nightBlock.images
        (get_image_index nightBlock 82800 79200 108000 false) = .ok img :=
  c10_image_index_in_bounds nightBlock 82800 79200 108000 (by decide) (by decide)
    (by decide)

theorem level_pairMsg (p : (String × Int × Int) × (String × Int × Int)) (m : VMsg)
    (hm : m ∈ pairMsg p) : m.level = Level.warning := by
  simp only [pairMsg] at hm
  split at hm
  · rw [List.mem_singleton.mp hm]
  · split at hm
    · rw [List.mem_singleton.mp hm]
    · exact absurd hm (List.not_mem_nil m)

theorem level_circularMsg (f l : String × Int × Int) (m : VMsg)
    (hm : m ∈ circularMsg f l) : m.level = Level.warning := by
  simp only [circularMsg] at hm
  split at hm
  · rw [List.mem_singleton.mp hm]
  · exact absurd hm (List.not_mem_nil m)

theorem level_coverageMsg (blocks : List (String × Int × Int)) (m : VMsg)
    (hm : m ∈ coverageMsg blocks) : m.level = Level.warning := by
  simp only [coverageMsg] at hm
  split at hm
  · rw [List.mem_singleton.mp hm]
  · exact absurd hm (List.not_mem_nil m)

/-- C4.  The spec claims the coverage analysis adds only warning-level
messages and raises no exception.  The working copy
(`Validator._analyze_time_coverage`) indeed only ever adds warnings — second
conjunct — but the schedule-side copy
(`ScheduleValidator._analyze_time_coverage`) crashes on every nonempty
timeblocks schedule: it stores resolved datetimes in its block list and then
calls `datetime.combine(date.today(), current_end)` on them, a `TypeError`
(first conjunct shows the crash on a one-block absolute schedule). -/
theorem c4_coverage_warnings_only :
    sv_analyze_time_coverage compute0 none svOneBlock 0 0 = .error .typeError
    ∧ ∀ (blocks : List (String × Int × Int)) (msgs : List VMsg) (m : VMsg),
        v_analyze blocks = .ok msgs → m ∈ msgs → m.level = Level.warning := by
  refine ⟨by decide, ?_⟩
  intro blocks msgs m hv hm
  unfold v_analyze at hv
  cases hs : sortOn (fun b => b.2.1) blocks with
  | nil =>
    rw [hs] at hv
    exact Except.noConfusion hv
  | cons b0 rest =>
    rw [hs] at hv
    injection hv with hv2
    subst hv2
    rcases List.mem_append.mp hm with hm1 | hm2
    · rcases List.mem_append.mp hm1 with hm3 | hm4
      · obtain ⟨l, hl, hml⟩ := List.mem_flatten.mp hm3
        obtain ⟨p, _, hpl⟩ := List.mem_map.mp hl
        exact level_pairMsg p m (hpl ▸ hml)
      · exact level_circularMsg _ _ m hm4
    · exact level_coverageMsg _ m hm2

/-- Witness for C4's universally quantified conjunct, at a two-block input
with a 30-second gap. -/
theorem c4_witness :
    (⟨gapCheck, Level.warning, ["a", "b"]⟩ : VMsg).level = Level.warning :=
  c4_coverage_warnings_only.2 [("a", 28800, 36000), ("b", 36030, 50400)]
    [⟨gapCheck, Level.warning, ["a", "b"]⟩, ⟨coverageCheck, Level.warning, []⟩]
    ⟨gapCheck, Level.warning, ["a", "b"]⟩ (by decide) (by decide)

/-- C5, counterexample.  The claim says a gap warning is emitted exactly when
the gap exceeds a one-minute tolerance, so a 30-second gap must produce no
warning.  The code's tolerance is one second: blocks ending 10:00:00 and
starting 10:00:30 do produce a gap warning. -/
theorem c5_counterexample :
    v_analyze [("a", 28800, 36000), ("b", 36030, 50400)]
      = .ok [⟨gapCheck, Level.warning, ["a", "b"]⟩, ⟨coverageCheck, Level.warning, []⟩]
    ∧ (36030 : Int) - 36000 ≤ 60 := by
  exact ⟨by decide, by decide⟩

theorem gap_mem_pairMsg (p : (String × Int × Int) × (String × Int × Int)) (n1 n2 : String) :
    (⟨gapCheck, Level.warning, [n1, n2]⟩ : VMsg) ∈ pairMsg p
      ↔ p.1.1 = n1 ∧ p.2.1 = n2 ∧ p.2.2.1 - normEnd p.1.2.1 p.1.2.2 > 1 := by
  simp only [pairMsg]
  split
  · rename_i hov
    constructor
    · intro hm
      have heq := List.mem_singleton.mp hm
      have hck : gapCheck = overlapCheck := congrArg VMsg.check heq
      exact absurd hck (by decide)
    · rintro ⟨-, -, hgt⟩
      exact absurd hgt (by omega)
  · split
    · rename_i hov hgap
      constructor
      · intro hm
        have heq := List.mem_singleton.mp hm
        have hab := congrArg VMsg.about heq
        simp at hab
        exact ⟨hab.1.symm, hab.2.symm, hgap⟩
      · rintro ⟨h1, h2, -⟩
        rw [← h1, ← h2]
        exact List.mem_singleton.mpr rfl
    · rename_i hov hgap
      constructor
      · intro hm
        exact absurd hm (List.not_mem_nil _)
      · rintro ⟨-, -, hgt⟩
        exact absurd hgt hgap

theorem overlap_mem_pairMsg (p : (String × Int × Int) × (String × Int × Int)) (n1 n2 : String) :
    (⟨overlapCheck, Level.warning, [n1, n2]⟩ : VMsg) ∈ pairMsg p
      ↔ p.1.1 = n1 ∧ p.2.1 = n2 ∧ normEnd p.1.2.1 p.1.2.2 - p.2.2.1 > 1 := by
  simp only [pairMsg]
  split
  · rename_i hov
    constructor
    · intro hm
      have heq := List.mem_singleton.mp hm
      have hab := congrArg VMsg.about heq
      simp at hab
      exact ⟨hab.1.symm, hab.2.symm, hov⟩
    · rintro ⟨h1, h2, -⟩
      rw [← h1, ← h2]
      exact List.mem_singleton.mpr rfl
  · split
    · rename_i hov hgap
      constructor
      · intro hm
        have heq := List.mem_singleton.mp hm
        have hck : overlapCheck = gapCheck := congrArg VMsg.check heq
        exact absurd hck (by decide)
      · rintro ⟨-, -, hgt⟩
        exact absurd hgt hov
    · rename_i hov hgap
      constructor
      · intro hm
        exact absurd hm (List.not_mem_nil _)
      · rintro ⟨-, -, hgt⟩
        exact absurd hgt hov

theorem named_not_mem_circularMsg (f l : String × Int × Int) (c : String)
    (n1 n2 : String) : (⟨c, Level.warning, [n1, n2]⟩ : VMsg) ∉ circularMsg f l := by
  simp only [circularMsg]
  split
  · intro hm
    have hab := congrArg VMsg.about (List.mem_singleton.mp hm)
    simp at hab
  · exact List.not_mem_nil _

theorem named_not_mem_coverageMsg (blocks : List (String × Int × Int)) (c : String)
    (n1 n2 : String) : (⟨c, Level.warning, [n1, n2]⟩ : VMsg) ∉ coverageMsg blocks := by
  simp only [coverageMsg]
  split
  · intro hm
    have hab := congrArg VMsg.about (List.mem_singleton.mp hm)
    simp at hab
  · exact List.not_mem_nil _

/-- C5, amended.  In `Validator._analyze_time_coverage` the tolerance is one
second, not one minute, and applies to overlaps too: for names `n1, n2`, an
overlap warning naming them is in the output exactly when some adjacent pair
of the blocks sorted by start time carries those names and its (normalized)
end exceeds the following start by more than one second; a gap warning
exactly when the following start exceeds the (normalized) end by more than
one second. -/
theorem c5_amended_pair_tolerance (blocks : List (String × Int × Int)) (msgs : List VMsg)
    (n1 n2 : String) (hv : v_analyze blocks = .ok msgs) :
    ((⟨overlapCheck, Level.warning, [n1, n2]⟩ : VMsg) ∈ msgs
      ↔ ∃ p ∈ (sortOn (fun b => b.2.1) blocks).zip (sortOn (fun b => b.2.1) blocks).tail,
          p.1.1 = n1 ∧ p.2.1 = n2 ∧ normEnd p.1.2.1 p.1.2.2 - p.2.2.1 > 1)
    ∧ ((⟨gapCheck, Level.warning, [n1, n2]⟩ : VMsg) ∈ msgs
      ↔ ∃ p ∈ (sortOn (fun b => b.2.1) blocks).zip (sortOn (fun b => b.2.1) blocks).tail,
          p.1.1 = n1 ∧ p.2.1 = n2 ∧ p.2.2.1 - normEnd p.1.2.1 p.1.2.2 > 1) := by
  unfold v_analyze at hv
  cases hs : sortOn (fun b => b.2.1) blocks with
  | nil =>
    rw [hs] at hv
    exact Except.noConfusion hv
  | cons b0 rest =>
    rw [hs] at hv
    injection hv with hv2
    subst hv2
    simp only [List.tail_cons]
    constructor
    · constructor
      · intro hm
        rcases List.mem_append.mp hm with hm1 | hm2
        · rcases List.mem_append.mp hm1 with hm3 | hm4
          · obtain ⟨l, hl, hml⟩ := List.mem_flatten.mp hm3
            obtain ⟨p, hp, hpl⟩ := List.mem_map.mp hl
            exact ⟨p, hp, (overlap_mem_pairMsg p n1 n2).mp (hpl ▸ hml)⟩
          · exact absurd hm4 (named_not_mem_circularMsg _ _ _ n1 n2)
        · exact absurd hm2 (named_not_mem_coverageMsg _ _ n1 n2)
      · rintro ⟨p, hp, hcond⟩
        refine List.mem_append.mpr (Or.inl (List.mem_append.mpr (Or.inl ?_)))
        exact List.mem_flatten.mpr ⟨pairMsg p, List.mem_map.mpr ⟨p, hp, rfl⟩,
          (overlap_mem_pairMsg p n1 n2).mpr hcond⟩
    · constructor
      · intro hm
        rcases List.mem_append.mp hm with hm1 | hm2
        · rcases List.mem_append.mp hm1 with hm3 | hm4
          · obtain ⟨l, hl, hml⟩ := List.mem_flatten.mp hm3
            obtain ⟨p, hp, hpl⟩ := List.mem_map.mp hl
            exact ⟨p, hp, (gap_mem_pairMsg p n1 n2).mp (hpl ▸ hml)⟩
          · exact absurd hm4 (named_not_mem_circularMsg _ _ _ n1 n2)
        · exact absurd hm2 (named_not_mem_coverageMsg _ _ n1 n2)
      · rintro ⟨p, hp, hcond⟩
        refine List.mem_append.mpr (Or.inl (List.mem_append.mpr (Or.inl ?_)))
        exact List.mem_flatten.mpr ⟨pairMsg p, List.mem_map.mpr ⟨p, hp, rfl⟩,
          (gap_mem_pairMsg p n1 n2).mpr hcond⟩

/-- Witness for C5's amended characterization at the 30-second-gap input. -/
theorem c5_amended_witness :
    (⟨gapCheck, Level.warning, ["a", "b"]⟩ : VMsg)
      ∈ [(⟨gapCheck, Level.warning, ["a", "b"]⟩ : VMsg),
          ⟨coverageCheck, Level.warning, []⟩] :=
  (c5_amended_pair_tolerance [("a", 28800, 36000), ("b", 36030, 50400)]
    [⟨gapCheck, Level.warning, ["a", "b"]⟩, ⟨coverageCheck, Level.warning, []⟩]
    "a" "b" (by decide)).2.mpr (by decide)

theorem pyIndex_zero (l : List String) (hl : l ≠ []) : pyIndex l 0 = .ok l.headI := by
  cases l with
  | nil => exact absurd rfl hl
  | cons a t => simp [pyIndex]

/-- C6, counterexample.  The claim reports the shuffled-day display window as
ending at 23:59:59; the code builds it with `time(23, 59)`, i.e. 23:59:00
(86340 s), not 23:59:59 (86399 s). -/
theorem c6_counterexample :
    get_wallpaper compute0 none mondayShuffle 43200 false {}
      = .ok (some ("a.jpg", ratOf 0, ratOf 86340), {})
    ∧ ratOf 86340 ≠ ratOf (23 * 3600 + 59 * 60 + 59) := by
  exact ⟨by decide, by decide⟩

/-- C6, amended.  For a Days schedule, when now's weekday has an entry with at
least one image and marked shuffle, the current wallpaper is the entry's
first image and the window runs from today's midnight to today's 23:59:00
(`time(23, 59)`), from any calculator state (the days branch never touches
the calculator). -/
theorem c6_amended_shuffled_day_window (compute : SolarKey → Option Nat)
    (location : Option Location) (schedule : Schedule) (when : Int) (σ : CalcState)
    (entry : DaySchedule)
    (hty : schedule.meta.type = ScheduleType.days)
    (hfind : assocFind schedule.days (dayName (dateOf when)) = some entry)
    (himg : entry.images ≠ [])
    (hshuf : entry.shuffle = true) :
    get_wallpaper compute location schedule when false σ
      = .ok (some (entry.images.headI, ratOf (combine (dateOf when) 0),
          ratOf (combine (dateOf when) lastMinute)), σ) := by
  have hne : schedule.days ≠ [] := by
    intro h0
    rw [h0] at hfind
    simp [assocFind] at hfind
  have hnt : ¬ schedule.meta.type = ScheduleType.timeblocks := by
    rw [hty]
    intro h
    exact ScheduleType.noConfusion h
  simp [get_wallpaper, hnt, hty, gwDays, hne, hfind, himg, hshuf,
    pyIndex_zero entry.images himg, Except.map]

/-- Witness for C6's amended window on the concrete shuffled Monday
schedule. -/
theorem c6_amended_witness :
    get_wallpaper compute0 none mondayShuffle 43200 false {}
      = .ok (some ("a.jpg", ratOf 0, ratOf 86340), {}) :=
  c6_amended_shuffled_day_window compute0 none mondayShuffle 43200 {}
    { images := ["a.jpg"], shuffle := true } (by decide) (by decide) (by decide)
    (by decide)

/-- C7, counterexample.  The claim reports the next-wallpaper window of a
shuffled current block as running from `now` to the block's end; the code
returns the block's own resolved span: at now = 10:00 in an 08:00-20:00
shuffled block the window starts at 08:00 (28800 s), not at `now`
(36000 s). -/
theorem c7_counterexample :
    get_wallpaper compute0 none dayShuffleSchedule 36000 true {}
      = .ok (some ("a.jpg", ratOf 28800, ratOf 72000), {})
    ∧ ratOf 28800 ≠ ratOf 36000 := by
  exact ⟨by decide, by decide⟩

/-- C7, amended.  For a timeblocks schedule whose current block is
shuffle-enabled, has at least one image, and whose remaining time is at least
one per-image duration, the next wallpaper is the block's first image and the
window is the full effective block span — from the (possibly
previous-day-re-anchored) block start to the block end, not from `now` and
not a per-image slice. -/
theorem c7_amended_shuffled_next_window (compute : SolarKey → Option Nat)
    (location : Option Location) (schedule : Schedule) (when : Int)
    (cb : TimeBlock) (nbv : Option TimeBlock) (t : Int × Int × Int)
    (hty : schedule.meta.type = ScheduleType.timeblocks)
    (hcb : get_blockP compute location schedule when false = .ok (some cb))
    (hnb : get_blockP compute location schedule when true = .ok nbv)
    (himg : cb.images ≠ [])
    (heff : effective_block_timesP compute location cb when (dateOf when) = .ok t)
    (hshuf : cb.shuffle = true)
    (hdur : durLe t.2.2 cb.images.length (t.2.1 - when) = true) :
    get_wallpaperP compute location schedule when true
      = .ok (some (cb.images.headI, ratOf t.1, ratOf t.2.1)) := by
  simp [get_wallpaperP, hty, hcb, hnb, gwTbNextP, himg, heff, hdur, hshuf,
    pyIndex_zero cb.images himg]

/-- Witness for C7's amended window on the concrete shuffled block. -/
theorem c7_amended_witness :
    get_wallpaperP compute0 none dayShuffleSchedule 36000 true
      = .ok (some ("a.jpg", ratOf 28800, ratOf 72000)) :=
  c7_amended_shuffled_next_window compute0 none dayShuffleSchedule 36000
    dayShuffleBlock (some dayShuffleBlock) (28800, 72000, 43200) (by decide) (by decide)
    (by decide) (by decide) (by decide) (by decide) (by decide)

theorem digitVal_dchar (d : Nat) (hd : d < 10) : digitVal (dchar d) = d := by
  interval_cases d <;> decide

theorem isWs_dchar (d : Nat) : isWs (dchar d) = false := by
  unfold dchar
  split <;> decide

theorem dchar_ne_colon (d : Nat) : ¬ dchar d = ':' := by
  unfold dchar
  split <;> decide

theorem isWs_amLetter (pm u : Bool) : isWs (amLetter pm u) = false := by
  cases pm <;> cases u <;> decide

theorem amLetter_ne_colon (pm u : Bool) : ¬ amLetter pm u = ':' := by
  cases pm <;> cases u <;> decide

theorem isWs_emLetter (u : Bool) : isWs (emLetter u) = false := by
  cases u <;> decide

theorem lowerChar_dchar (d : Nat) : lowerChar (dchar d) = dchar d := by
  unfold dchar
  split <;> decide

theorem lowerChar_space : lowerChar ' ' = ' ' := by decide

theorem lowerChar_colon : lowerChar ':' = ':' := by decide

theorem lowerChar_zero : lowerChar '0' = '0' := by decide

theorem lowerChar_one : lowerChar '1' = '1' := by decide

theorem lowerChar_amLetter (pm u : Bool) : lowerChar (amLetter pm u) = amLetter pm false := by
  cases pm <;> cases u <;> decide

theorem lowerChar_emLetter (u : Bool) : lowerChar (emLetter u) = 'm' := by
  cases u <;> decide

theorem map_lower_spaces (k : Nat) : (spaces k).map lowerChar = spaces k := by
  simp [spaces, List.map_replicate, lowerChar_space]

theorem map_lower_hourChars (h : Nat) (pad : Bool) :
    (hourChars h pad).map lowerChar = hourChars h pad := by
  by_cases h10 : h < 10 <;> cases pad <;>
    simp [hourChars, h10, lowerChar_dchar, lowerChar_zero, lowerChar_one]

theorem dropWhile_isWs_cons (c : Char) (l : List Char) (hc : isWs c = false) :
    (c :: l).dropWhile isWs = c :: l := by
  simp [List.dropWhile_cons, hc]

/-- Stripping a string with non-whitespace first and last characters is the
identity. -/
theorem stripList_sandwich (c : Char) (l : List Char) (x : Char)
    (hc : isWs c = false) (hx : isWs x = false) :
    stripList (c :: (l ++ [x])) = c :: (l ++ [x]) := by
  unfold stripList
  rw [dropWhile_isWs_cons c (l ++ [x]) hc]
  have hrev : (c :: (l ++ [x])).reverse = x :: (l.reverse ++ [c]) := by
    simp
  rw [hrev, dropWhile_isWs_cons x (l.reverse ++ [c]) hx, ← hrev, List.reverse_reverse]

theorem subColonAux_notcolon (k : Nat) :
    ∀ (pend : List Char) (c : Char) (l : List Char), isWs c = false → ¬ c = ':' →
      subColonAux pend false (spaces k ++ c :: l)
        = pend.reverse ++ (spaces k ++ c :: subColonAux [] false l) := by
  induction k with
  | zero =>
    intro pend c l hws hc
    simp [spaces, subColonAux, hc, hws]
  | succ k ih =>
    intro pend c l hws hc
    have hstep : spaces (k + 1) ++ c :: l = ' ' :: (spaces k ++ c :: l) := by
      simp [spaces, List.replicate_succ]
    rw [hstep]
    show subColonAux pend false (' ' :: (spaces k ++ c :: l)) = _
    rw [subColonAux]
    simp only [show ¬ (' ' = ':') from by decide, if_false, show isWs ' ' = true from rfl,
      if_true]
    rw [ih (' ' :: pend) c l hws hc]
    simp [spaces, List.replicate_succ]

theorem subColonAux_colon (k : Nat) :
    ∀ (pend : List Char) (l : List Char),
      subColonAux pend false (spaces k ++ ':' :: l) = ':' :: subColonAux [] true l := by
  induction k with
  | zero =>
    intro pend l
    simp [spaces, subColonAux]
  | succ k ih =>
    intro pend l
    have hstep : spaces (k + 1) ++ ':' :: l = ' ' :: (spaces k ++ ':' :: l) := by
      simp [spaces, List.replicate_succ]
    rw [hstep]
    show subColonAux pend false (' ' :: (spaces k ++ ':' :: l)) = _
    rw [subColonAux]
    simp only [show ¬ (' ' = ':') from by decide, if_false, show isWs ' ' = true from rfl,
      if_true]
    exact ih (' ' :: pend) l

theorem subColonAux_after (k : Nat) :
    ∀ (c : Char) (l : List Char), isWs c = false → ¬ c = ':' →
      subColonAux [] true (spaces k ++ c :: l) = c :: subColonAux [] false l := by
  induction k with
  | zero =>
    intro c l hws hc
    simp [spaces, subColonAux, hc, hws]
  | succ k ih =>
    intro c l hws hc
    have hstep : spaces (k + 1) ++ c :: l = ' ' :: (spaces k ++ c :: l) := by
      simp [spaces, List.replicate_succ]
    rw [hstep]
    show subColonAux [] true (' ' :: (spaces k ++ c :: l)) = _
    rw [subColonAux]
    simp only [show ¬ (' ' = ':') from by decide, if_false, show isWs ' ' = true from rfl,
      if_true]
    exact ih c l hws hc

theorem subColonAux_cons (c : Char) (l : List Char) (hws : isWs c = false)
    (hc : ¬ c = ':') :
    subColonAux [] false (c :: l) = c :: subColonAux [] false l := by
  have := subColonAux_notcolon 0 [] c l hws hc
  simpa [spaces] using this

theorem subColonAux_final_m : subColonAux [] false ['m'] = ['m'] := by decide

theorem subColon_tail (m1 m2 s2 s3 : Nat) (pm : Bool) :
    subColonAux [] true
        (spaces s2 ++ dchar m1 :: dchar m2 :: (spaces s3 ++ [amLetter pm false, 'm']))
      = dchar m1 :: dchar m2 :: (spaces s3 ++ [amLetter pm false, 'm']) := by
  rw [subColonAux_after s2 (dchar m1) _ (isWs_dchar m1) (dchar_ne_colon m1)]
  rw [subColonAux_cons (dchar m2) _ (isWs_dchar m2) (dchar_ne_colon m2)]
  have h3 := subColonAux_notcolon s3 [] (amLetter pm false) ['m']
    (isWs_amLetter pm false) (amLetter_ne_colon pm false)
  rw [show spaces s3 ++ [amLetter pm false, 'm']
      = spaces s3 ++ amLetter pm false :: ['m'] from rfl, h3, subColonAux_final_m]
  simp

theorem subColonAux_front (front : List Char)
    (hfront : ∀ c ∈ front, isWs c = false ∧ ¬ c = ':') (s1 : Nat) (l : List Char) :
    subColonAux [] false (front ++ (spaces s1 ++ ':' :: l))
      = front ++ ':' :: subColonAux [] true l := by
  induction front with
  | nil => simpa using subColonAux_colon s1 [] l
  | cons c rest ih =>
    have hc := hfront c (by simp)
    rw [List.cons_append, subColonAux_cons c _ hc.1 hc.2,
      ih (fun c2 hc2 => hfront c2 (by simp [hc2]))]
    simp

theorem hourChars_chars (h : Nat) (pad : Bool) :
    ∀ c ∈ hourChars h pad, isWs c = false ∧ ¬ c = ':' := by
  intro c hc
  by_cases h10 : h < 10 <;> cases pad <;> simp [hourChars, h10] at hc
  · rw [hc]
    exact ⟨isWs_dchar h, dchar_ne_colon h⟩
  · rcases hc with hc | hc <;> rw [hc]
    · exact ⟨by decide, by decide⟩
    · exact ⟨isWs_dchar h, dchar_ne_colon h⟩
  · rcases hc with hc | hc <;> rw [hc]
    · exact ⟨by decide, by decide⟩
    · exact ⟨isWs_dchar (h - 10), dchar_ne_colon (h - 10)⟩
  · rcases hc with hc | hc <;> rw [hc]
    · exact ⟨by decide, by decide⟩
    · exact ⟨isWs_dchar (h - 10), dchar_ne_colon (h - 10)⟩

theorem subColon_lowered (h : Nat) (pad : Bool) (m1 m2 s1 s2 s3 : Nat) (pm : Bool) :
    subColon (twelveHourInput h pad m1 m2 s1 s2 s3 pm false false)
      = hourChars h pad
          ++ ':' :: (dchar m1 :: dchar m2 :: (spaces s3 ++ [amLetter pm false, 'm'])) := by
  have hre : twelveHourInput h pad m1 m2 s1 s2 s3 pm false false
      = hourChars h pad ++ (spaces s1
          ++ ':' :: (spaces s2 ++ dchar m1 :: dchar m2 :: (spaces s3 ++ [amLetter pm false, 'm']))) := by
    simp [twelveHourInput, List.append_assoc, emLetter]
  rw [show subColon (twelveHourInput h pad m1 m2 s1 s2 s3 pm false false)
      = subColonAux [] false (twelveHourInput h pad m1 m2 s1 s2 s3 pm false false) from rfl,
    hre, subColonAux_front (hourChars h pad) (hourChars_chars h pad),
    subColon_tail m1 m2 s2 s3 pm]

theorem stripList_eq_of (l : List Char) (h1 : l.dropWhile isWs = l)
    (h2 : l.reverse.dropWhile isWs = l.reverse) : stripList l = l := by
  unfold stripList
  rw [h1, h2, List.reverse_reverse]

theorem dropWhile_isWs_append (front rest : List Char) (hf : front ≠ [])
    (hall : ∀ c ∈ front, isWs c = false) :
    (front ++ rest).dropWhile isWs = front ++ rest := by
  cases front with
  | nil => exact absurd rfl hf
  | cons c f =>
    rw [List.cons_append, dropWhile_isWs_cons]
    exact hall c (by simp)

theorem hourChars_ne_nil (h : Nat) (pad : Bool) : hourChars h pad ≠ [] := by
  by_cases h10 : h < 10 <;> cases pad <;> simp [hourChars, h10]

theorem twelveHourInput_assoc (h : Nat) (pad : Bool) (m1 m2 s1 s2 s3 : Nat)
    (pm u1 u2 : Bool) :
    twelveHourInput h pad m1 m2 s1 s2 s3 pm u1 u2
      = hourChars h pad ++ (spaces s1 ++ ':' :: (spaces s2
          ++ dchar m1 :: dchar m2 :: (spaces s3 ++ [amLetter pm u1, emLetter u2]))) := by
  simp [twelveHourInput, List.append_assoc]

theorem twelveHourInput_snoc (h : Nat) (pad : Bool) (m1 m2 s1 s2 s3 : Nat)
    (pm u1 u2 : Bool) :
    twelveHourInput h pad m1 m2 s1 s2 s3 pm u1 u2
      = (hourChars h pad ++ spaces s1 ++ ':' :: (spaces s2
          ++ dchar m1 :: dchar m2 :: (spaces s3 ++ [amLetter pm u1]))) ++ [emLetter u2] := by
  simp [twelveHourInput, List.append_assoc]

theorem stripList_input (h : Nat) (pad : Bool) (m1 m2 s1 s2 s3 : Nat) (pm u1 u2 : Bool) :
    stripList (twelveHourInput h pad m1 m2 s1 s2 s3 pm u1 u2)
      = twelveHourInput h pad m1 m2 s1 s2 s3 pm u1 u2 := by
  apply stripList_eq_of
  · rw [twelveHourInput_assoc]
    exact dropWhile_isWs_append (hourChars h pad) _ (hourChars_ne_nil h pad)
      (fun c hc => (hourChars_chars h pad c hc).1)
  · rw [twelveHourInput_snoc, List.reverse_append, List.reverse_cons, List.reverse_nil,
      List.nil_append, List.singleton_append]
    exact dropWhile_isWs_cons _ _ (isWs_emLetter u2)

theorem lower_input (h : Nat) (pad : Bool) (m1 m2 s1 s2 s3 : Nat) (pm u1 u2 : Bool) :
    (twelveHourInput h pad m1 m2 s1 s2 s3 pm u1 u2).map lowerChar
      = twelveHourInput h pad m1 m2 s1 s2 s3 pm false false := by
  simp [twelveHourInput, List.map_append, map_lower_hourChars, map_lower_spaces,
    lowerChar_colon, lowerChar_dchar, lowerChar_amLetter, lowerChar_emLetter, emLetter]
  cases u2 <;> rfl

theorem suffix_cons_ext (l1 l2 : List Char) (c : Char) (hs : l1 <:+ l2) :
    l1 <:+ c :: l2 := by
  obtain ⟨t, rfl⟩ := hs
  exact ⟨c :: t, rfl⟩

theorem suffix_append_ext (l1 l2 l : List Char) (hs : l1 <:+ l2) : l1 <:+ l ++ l2 := by
  obtain ⟨t, rfl⟩ := hs
  exact ⟨l ++ t, by simp⟩

theorem ampm_suffix (h : Nat) (pad : Bool) (m1 m2 s1 s2 s3 : Nat) (pm : Bool) :
    [amLetter pm false, 'm'] <:+ twelveHourInput h pad m1 m2 s1 s2 s3 pm false false := by
  rw [twelveHourInput_assoc]
  apply suffix_append_ext
  apply suffix_append_ext
  apply suffix_cons_ext
  apply suffix_append_ext
  apply suffix_cons_ext
  apply suffix_cons_ext
  apply suffix_append_ext
  rw [show emLetter false = 'm' from rfl]

theorem hasSub_input (h : Nat) (pad : Bool) (m1 m2 s1 s2 s3 : Nat) (pm : Bool) :
    (hasSub ['a', 'm'] (twelveHourInput h pad m1 m2 s1 s2 s3 pm false false)
      || hasSub ['p', 'm'] (twelveHourInput h pad m1 m2 s1 s2 s3 pm false false)) = true := by
  have hsuf := ampm_suffix h pad m1 m2 s1 s2 s3 pm
  obtain ⟨t, ht⟩ := hsuf
  cases pm with
  | false =>
    have : hasSub ['a', 'm'] (twelveHourInput h pad m1 m2 s1 s2 s3 false false false)
        = true := decide_eq_true ⟨t, [], by simpa [amLetter] using ht⟩
    simp [this]
  | true =>
    have : hasSub ['p', 'm'] (twelveHourInput h pad m1 m2 s1 s2 s3 true false false)
        = true := decide_eq_true ⟨t, [], by simpa [amLetter] using ht⟩
    simp [this]

theorem matchHourI_input (h : Nat) (pad : Bool) (hh1 : 1 ≤ h) (hh2 : h ≤ 12)
    (rest : List Char) :
    matchHourI (hourChars h pad ++ ':' :: rest) = some (h, ':' :: rest) := by
  interval_cases h <;> cases pad <;> rfl

theorem matchTail_input (s3 : Nat) (hs3 : 1 ≤ s3) (pm : Bool) :
    matchTail (spaces s3 ++ [amLetter pm false, 'm']) = some pm := by
  obtain ⟨k, rfl⟩ : ∃ k, s3 = k + 1 := ⟨s3 - 1, by omega⟩
  have hdrop : (spaces k ++ [amLetter pm false, 'm']).dropWhile isWs
      = [amLetter pm false, 'm'] := by
    induction k with
    | zero =>
      cases pm <;> rfl
    | succ k ih =>
      rw [show spaces (k + 1) ++ [amLetter pm false, 'm']
          = ' ' :: (spaces k ++ [amLetter pm false, 'm']) from by
            simp [spaces, List.replicate_succ]]
      rw [List.dropWhile_cons]
      simpa using ih
  rw [show spaces (k + 1) ++ [amLetter pm false, 'm']
      = ' ' :: (spaces k ++ [amLetter pm false, 'm']) from by
        simp [spaces, List.replicate_succ]]
  rw [matchTail]
  simp only [show isWs ' ' = true from rfl, if_true, hdrop]
  cases pm <;> rfl

theorem matchMinute_input (m1 m2 : Nat) (hm1 : m1 < 6) (hm2 : m2 < 10)
    (tail : List Char) (pmv : Bool) (ht : matchTail tail = some pmv) :
    matchMinute (dchar m1 :: dchar m2 :: tail) = some (m1 * 10 + m2, pmv) := by
  have hc : (isDig (dchar m1) && decide (dchar m1 ≤ '5') && isDig (dchar m2)) = true := by
    interval_cases m1 <;> interval_cases m2 <;> decide
  simp [matchMinute, hc, ht, digitVal_dchar m1 (by omega), digitVal_dchar m2 hm2]

theorem strptimeIMp_input (h : Nat) (pad : Bool) (m1 m2 s3 : Nat) (pm : Bool)
    (hh1 : 1 ≤ h) (hh2 : h ≤ 12) (hm1 : m1 < 6) (hm2 : m2 < 10) (hs3 : 1 ≤ s3) :
    strptimeIMp (hourChars h pad
        ++ ':' :: (dchar m1 :: dchar m2 :: (spaces s3 ++ [amLetter pm false, 'm'])))
      = some (3600 * hourTo24 h pm + 60 * (m1 * 10 + m2)) := by
  rw [strptimeIMp, matchHourI_input h pad hh1 hh2]
  simp only [if_true, ite_true, reduceIte]
  rw [matchMinute_input m1 m2 hm1 hm2 _ pm (matchTail_input s3 hs3 pm)]

/-- C9, counterexample.  The claim says the 12-hour grammar allows zero spaces
before the am/pm marker, with `"8:30pm"` parsing to 20:30.  `strptime`
compiles the literal space of `"%I:%M %p"` to `\s+` (one or more), so
`"8:30pm"` raises `ValueError` while `"8:30 pm"` parses. -/
theorem c9_counterexample :
    parse_time_spec ("8:30pm") = .error .valueError
    ∧ parse_time_spec ("8:30 pm") = .ok (.absolute (20 * 3600 + 30 * 60)) := by
  exact ⟨by decide, by decide⟩

/-- C9, amended.  The parser accepts every 12-hour input made of an hour 1-12
in one or two digits, an optionally spaced colon, two minute digits (minutes
00-59), then *one or more* spaces, then am or pm in any letter case, and
returns the corresponding Absolute `TimeSpec`. -/
theorem c9_amended_twelve_hour (h m1 m2 s1 s2 s3 : Nat) (pad pm u1 u2 : Bool)
    (hh1 : 1 ≤ h) (hh2 : h ≤ 12) (hm1 : m1 < 6) (hm2 : m2 < 10) (hs3 : 1 ≤ s3) :
    parse_time_spec (String.mk (twelveHourInput h pad m1 m2 s1 s2 s3 pm u1 u2))
      = .ok (.absolute (3600 * hourTo24 h pm + 60 * (m1 * 10 + m2))) := by
  simp only [parse_time_spec]
  rw [show (String.mk (twelveHourInput h pad m1 m2 s1 s2 s3 pm u1 u2)).toList
      = twelveHourInput h pad m1 m2 s1 s2 s3 pm u1 u2 from rfl,
    stripList_input, lower_input, hasSub_input, if_pos rfl,
    subColon_lowered, strptimeIMp_input h pad m1 m2 s3 pm hh1 hh2 hm1 hm2 hs3]

/-- Witness for C9's amended grammar: `"8:30 pm"` built from the grammar
parameters. -/
theorem c9_amended_witness :
    parse_time_spec (String.mk (twelveHourInput 8 false 3 0 0 0 1 true false false))
      = .ok (.absolute (3600 * hourTo24 8 true + 60 * (3 * 10 + 0))) :=
  c9_amended_twelve_hour 8 3 0 0 0 1 false true false false (by decide) (by decide)
    (by decide) (by decide) (by decide)
